import Mathlib

/-!
Shallow embedding of the `stock_picking_cancel_back2draft` Odoo module
(models/stock_move.py, models/stock_picking.py,
wizard/stock_picking_change_warehouse.py) and proofs about it.

Records are embedded as structures holding the fields the module reads or
writes; a database is lists of records addressed by numeric ids, mirroring
recordsets.  Operations that can raise become functions into `Except Err DB`;
an `error` result models an exception aborting the enclosing transaction
(no partial state survives, matching the single-transaction model).
-/

namespace StockB2D

/-- A stock move (the fields read or written by the module). -/
structure Move where
  id : Nat
  state : String
  scrapped : Bool
  picked : Bool
  propagate_cancel : Bool
  procure_method : String
  move_orig_ids : List Nat
  move_dest_ids : List Nat
  picking_id : Option Nat
  picking_type_id : Nat
  warehouse_id : Option Nat
  location_id : Nat
  location_dest_id : Nat
  move_line_ids : List Nat
  deriving Repr, DecidableEq

/-- A stock picking. -/
structure Picking where
  id : Nat
  name : String
  move_ids : List Nat
  picking_type_id : Nat
  location_id : Nat
  location_dest_id : Nat
  deriving Repr, DecidableEq

/-- An operation type (stock.picking.type): warehouse-scoped category with a
coarse `code` (incoming/outgoing/internal) and fine-grained `sequence_code`. -/
structure PickingType where
  id : Nat
  name : String
  warehouse_id : Nat
  code : String
  sequence_code : String
  default_location_src_id : Option Nat
  default_location_dest_id : Option Nat
  deriving Repr, DecidableEq

/-- A warehouse with its named storage locations and step configuration. -/
structure Warehouse where
  id : Nat
  name : String
  lot_stock_id : Nat
  wh_output_stock_loc_id : Nat
  wh_input_stock_loc_id : Nat
  wh_pack_stock_loc_id : Nat
  delivery_steps : String
  reception_steps : String
  deriving Repr, DecidableEq

/-- A stock location (only its usage matters to the module). -/
structure Location where
  id : Nat
  usage : String
  deriving Repr, DecidableEq

/-- The database of records the module operates on. -/
structure DB where
  moves : List Move
  pickings : List Picking
  pickingTypes : List PickingType
  warehouses : List Warehouse
  locations : List Location
  deriving Repr, DecidableEq

/-- Errors raised by the module (UserError / AccessError). -/
inductive Err where
  | userError (msg : String)
  | accessError (msg : String)
  deriving Repr, DecidableEq

def DB.getMove (db : DB) (i : Nat) : Option Move :=
  db.moves.find? (fun m => m.id == i)

def DB.getPicking (db : DB) (i : Nat) : Option Picking :=
  db.pickings.find? (fun p => p.id == i)

def DB.getPickingType (db : DB) (i : Nat) : Option PickingType :=
  db.pickingTypes.find? (fun t => t.id == i)

def DB.getWarehouse (db : DB) (i : Nat) : Option Warehouse :=
  db.warehouses.find? (fun w => w.id == i)

def DB.getLocation (db : DB) (i : Nat) : Option Location :=
  db.locations.find? (fun l => l.id == i)

/-- Apply an (id-preserving) update to every move whose id is in `ids`. -/
def DB.updMoves (db : DB) (ids : List Nat) (f : Move → Move) : DB :=
  { db with moves := db.moves.map (fun m => if ids.contains m.id then f m else m) }

/-- Replace the picking with the given id. -/
def DB.setPicking (db : DB) (p : Picking) : DB :=
  { db with pickings := db.pickings.map (fun q => if q.id == p.id then p else q) }

/-- The moves a picking owns (its `move_ids` resolved against the database). -/
def movesOf (db : DB) (p : Picking) : List Move :=
  p.move_ids.filterMap db.getMove

/-- Modelled from the spec: the host inventory engine owns the derived state of
a Picking, which "mirrors/derives from its moves" (spec data model).  The
derivation is not part of this repository; it is embedded here following the
host engine: empty or all-draft is draft, all-cancel is cancel, all moves
done-or-cancel is done, and any remaining mix of live moves yields one of
waiting / confirmed / assigned. -/
def pickingState (db : DB) (p : Picking) : String :=
  let sts := (movesOf db p).map (·.state)
  if sts.isEmpty then "draft"
  else if sts.all (· == "draft") then "draft"
  else if sts.all (· == "cancel") then "cancel"
  else if sts.all (fun s => s == "done" || s == "cancel") then "done"
  else if sts.contains "confirmed" then "confirmed"
  else if sts.contains "waiting" then "waiting"
  else "assigned"

/-- The record update performed on a move cancelled by the
`preserve_move_chain` branch of `StockMove._action_cancel`:
`picked = False`, reservations dropped (`move_line_ids` cleared by
`_do_unreserve`), `state = cancel`; every other field, in particular
`move_orig_ids`, `move_dest_ids` and `procure_method`, is untouched. -/
def cancelMove (m : Move) : Move :=
  { m with picked := false, move_line_ids := [], state := "cancel" }

def doneCancelMsg : String :=
  "You cannot cancel a stock move that has been set to Done. Create a return in order to reverse the moves which took place."

/-- The sibling states the cascade test pools:
`(move.move_dest_ids.mapped(move_orig_ids) - move).mapped(state)` -/
def siblingMoves (db : DB) (m : Move) : List Move :=
  (((m.move_dest_ids.filterMap db.getMove).map (·.move_orig_ids)).flatten.filterMap
    db.getMove).filter (fun s => s.id != m.id)

/-- The pooled cascade condition of `_action_cancel`:
all other predecessors of all successors of `m` are already cancelled. -/
def allSiblingsCancelled (db : DB) (m : Move) : Bool :=
  (siblingMoves db m).all (fun s => s.state == "cancel")

/-- The moves `_action_cancel` selects for cancellation out of its targets:
`self.filtered(lambda m: m.state != "cancel" and not (m.state == "done" and m.scrapped))`. -/
def toCancelIds (db : DB) (ids : List Nat) : List Nat :=
  ((ids.filterMap db.getMove).filter
    (fun m => m.state != "cancel" && !(m.state == "done" && m.scrapped))).map (·.id)

/-- The cascade targets of a cancelled move:
`move.move_dest_ids.filtered(lambda m: m.state != "done")`. -/
def destIdsOf (db : DB) (m : Move) : List Nat :=
  ((m.move_dest_ids.filterMap db.getMove).filter (fun d => d.state != "done")).map (·.id)

/-- The `for move in moves_to_cancel` loop handling `propagate_cancel`
(stock_move.py lines 34-40): when all pooled siblings are cancelled, the
non-done successors are cancelled recursively with the same context; `next`
is the recursive re-entry into `_action_cancel`. -/
def cascadeGo (next : DB → List Nat → Except Err DB) :
    DB → List Nat → Except Err DB
  | db, [] => .ok db
  | db, i :: rest =>
    match db.getMove i with
    | none => cascadeGo next db rest
    | some m =>
      if m.propagate_cancel && allSiblingsCancelled db m then
        match next db (destIdsOf db m) with
        | .error e => .error e
        | .ok db' => cascadeGo next db' rest
      else
        cascadeGo next db rest

/-- Embeds `StockMove._action_cancel` in the `preserve_move_chain = True`
branch (stock_move.py lines 15-45).  `fuel` bounds the cascade depth; with
fuel at least the number of moves plus one it never runs out (each nested
call cancels at least one previously live move), and running out acts as an
empty cascade. -/
def actionCancelPreserve : Nat → DB → List Nat → Except Err DB
  | 0, db, _ => .ok db
  | fuel + 1, db, ids =>
    let self := ids.filterMap db.getMove
    if self.any (fun m => m.state == "done" && !m.scrapped) then
      .error (.userError doneCancelMsg)
    else
      let cancelIds := toCancelIds db ids
      let db1 := db.updMoves cancelIds cancelMove
      cascadeGo (fun dbc jds => actionCancelPreserve fuel dbc jds) db1 cancelIds

def backToDraftMsg : String := "You can set to draft cancelled moves only"

/-- Embeds `StockMove.action_back_to_draft` (stock_move.py lines 47-74):
only `cancel` moves may go back to draft; moves with upstream links get
`procure_method = make_to_order`, the rest keep their `procure_method`. -/
def actionBackToDraft (db : DB) (ids : List Nat) : Except Err DB :=
  let self := ids.filterMap db.getMove
  if self.any (fun m => m.state != "cancel") then
    .error (.userError backToDraftMsg)
  else
    let withChain := (self.filter (fun m => !m.move_orig_ids.isEmpty)).map (·.id)
    let withoutChain := (self.filter (fun m => m.move_orig_ids.isEmpty)).map (·.id)
    let db1 := db.updMoves withChain
      (fun m => { m with state := "draft", procure_method := "make_to_order" })
    .ok (db1.updMoves withoutChain (fun m => { m with state := "draft" }))

/-- The per-move net effect of `action_back_to_draft` on a targeted move. -/
def draftMove (m : Move) : Move :=
  if m.move_orig_ids.isEmpty then { m with state := "draft" }
  else { m with state := "draft", procure_method := "make_to_order" }

/-- Fuel that always suffices for the cancellation cascade. -/
def cancelFuel (db : DB) : Nat := db.moves.length + 1

/-- Modelled from the spec: the host engine `Picking.action_cancel`
(external interface `cancel(moves, preserveChain)`) delegates to
`Move._action_cancel` on all moves of the pickings; called here with the
`preserve_move_chain` context. -/
def pickingActionCancelPreserve (db : DB) (pids : List Nat) : Except Err DB :=
  actionCancelPreserve (cancelFuel db) db
    ((pids.filterMap db.getPicking).map (·.move_ids)).flatten

def permMsg : String :=
  "You do not have permission to cancel and set pickings back to draft."

/-- Embeds `StockPicking._check_cancel_back_to_draft_allowed`; the ambient
`self.env.user.has_group(...)` lookup becomes the explicit `hasGroup`
argument. -/
def checkCancelBackToDraftAllowed (hasGroup : Bool) : Except Err Unit :=
  if !hasGroup then .error (.accessError permMsg) else .ok ()

/-- The pickings `action_cancel_back_to_draft` cancels:
`self.filtered(lambda p: p.state != "cancel")`. -/
def pickingsToCancel (db : DB) (pids : List Nat) : List Picking :=
  (pids.filterMap db.getPicking).filter (fun p => pickingState db p != "cancel")

/-- `moves = pickings_to_cancel.mapped("move_ids")`. -/
def movesToCancel (db : DB) (pids : List Nat) : List Move :=
  (((pickingsToCancel db pids).map (·.move_ids)).flatten).filterMap db.getMove

/-- `dest_move_ids_to_track`: destination moves of `propagate_cancel` moves
that are neither done nor cancelled before the cancellation. -/
def destTrackIds (db : DB) (pids : List Nat) : List Nat :=
  (((((movesToCancel db pids).filter
    (·.propagate_cancel)).map (·.move_dest_ids)).flatten.dedup).filterMap
      db.getMove).filter (fun m => m.state != "done" && m.state != "cancel")
        |>.map (·.id)

/-- `dest_pickings_to_reset`: owning pickings of live destination moves of
the cancelled pickings' moves. -/
def destPickingsReset (db : DB) (pids : List Nat) : List Nat :=
  (((movesToCancel db pids).map (fun m =>
    ((m.move_dest_ids.filterMap db.getMove).filter (fun d =>
      (d.state == "waiting" || d.state == "confirmed" ||
        d.state == "assigned"))).filterMap (·.picking_id))).flatten).dedup

/-- The post-cancel re-filter of `dest_pickings_to_reset` to still-resettable
states. -/
def resetPickings (db1 : DB) (dpr : List Nat) : List Picking :=
  (dpr.filterMap db1.getPicking).filter (fun p =>
    pickingState db1 p == "waiting" || pickingState db1 p == "confirmed" ||
      pickingState db1 p == "assigned")

/-- The re-fetch of the tracked destination moves that did get cancelled. -/
def cancelledIdsOf (db1 : DB) (track : List Nat) : List Nat :=
  ((track.filterMap db1.getMove).filter (fun m => m.state == "cancel")).map (·.id)

/-- The first half of `action_cancel_back_to_draft` (stock_picking.py lines
45-89): cancel the non-cancel pickings with chain preservation, tracking
which destination moves must be reset to draft afterwards.  Returns the new
database together with `cancelled_dest_move_ids`. -/
def cancelPhase (db : DB) (pids : List Nat) : Except Err (DB × List Nat) :=
  if (pickingsToCancel db pids).isEmpty then .ok (db, [])
  else
    match pickingActionCancelPreserve db ((pickingsToCancel db pids).map (·.id)) with
    | .error e => .error e
    | .ok db1 =>
      let cancelled := cancelledIdsOf db1 (destTrackIds db pids)
      if (destPickingsReset db pids).isEmpty then .ok (db1, cancelled)
      else
        let resetPs := resetPickings db1 (destPickingsReset db pids)
        if resetPs.isEmpty then .ok (db1, cancelled)
        else
          match pickingActionCancelPreserve db1 (resetPs.map (·.id)) with
          | .error e => .error e
          | .ok db2 =>
            .ok (db2, (cancelled ++ (resetPs.map (·.move_ids)).flatten).dedup)

/-- Embeds `StockPicking.action_cancel_back_to_draft` (stock_picking.py lines
34-97): permission check, chain-preserving cancellation with destination
tracking, then back-to-draft of the targeted moves and of the cancelled
destination moves. -/
def actionCancelBackToDraft (db : DB) (hasGroup : Bool) (pids : List Nat) :
    Except Err DB :=
  match checkCancelBackToDraftAllowed hasGroup with
  | .error e => .error e
  | .ok _ =>
    match cancelPhase db pids with
    | .error e => .error e
    | .ok (db1, cancelledDest) =>
      let selfMoveIds := (((pids.filterMap db1.getPicking).map (·.move_ids)).flatten)
      match actionBackToDraft db1 selfMoveIds with
      | .error e => .error e
      | .ok db2 =>
        if cancelledDest.isEmpty then .ok db2
        else actionBackToDraft db2 cancelledDest

def cannotChangeDoneMsg (names : String) : String :=
  "Cannot change warehouse for completed pickings: " ++ names

/-- Embeds `StockPicking.action_open_change_warehouse_wizard` (stock_picking.py
lines 8-32).  The returned action dict is condensed to its `active_ids`
payload; the method performs no writes. -/
def actionOpenChangeWarehouseWizard (db : DB) (hasGroup : Bool)
    (pids : List Nat) : Except Err (List Nat) :=
  match checkCancelBackToDraftAllowed hasGroup with
  | .error e => .error e
  | .ok _ =>
    let self := pids.filterMap db.getPicking
    let donePickings := self.filter (fun p => pickingState db p == "done")
    if !donePickings.isEmpty then
      .error (.userError
        (cannotChangeDoneMsg (String.intercalate ", " (donePickings.map (·.name)))))
    else .ok pids

/-! ### The change-warehouse wizard -/

/-- Owning pickings of a list of moves: `moves.mapped("picking_id")`.
A recordset only holds existing records, so dangling references are dropped. -/
def pickingsOfMoves (db : DB) (moveIds : List Nat) : List Nat :=
  (((moveIds.filterMap db.getMove).filterMap (·.picking_id)).filter
    (fun i => (db.getPicking i).isSome)).dedup

/-- One direction of `_get_all_chained_pickings`: the `while dest_moves` /
`while orig_moves` loop (wizard lines 83-91 and 95-103), walking the
reference selected by `sel` from a frontier of move ids, stopping as soon as
a step discovers no picking outside `all`. -/
def chainLoop (sel : Move → List Nat) : Nat → DB → List Nat → List Nat → List Nat
  | 0, _, all, _ => all
  | fuel + 1, db, all, frontier =>
    if frontier.isEmpty then all
    else
      let stepPickings := pickingsOfMoves db frontier
      let newP := stepPickings.filter (fun i => !all.contains i)
      if newP.isEmpty then all
      else
        chainLoop sel fuel db (all ++ newP)
          ((((newP.filterMap db.getPicking).map (·.move_ids)).flatten.filterMap
            db.getMove).map sel).flatten

/-- Fuel that always suffices for the chain walks. -/
def chainFuel (db : DB) : Nat := db.pickings.length + 1

/-- Embeds `_get_all_chained_pickings` (wizard lines 76-105): a downstream
walk over `move_dest_ids` to fixpoint, then an upstream walk over
`move_orig_ids` that treats everything already found as known. -/
def getAllChainedPickings (db : DB) (seedIds : List Nat) : List Nat :=
  let moves := (((seedIds.filterMap db.getPicking).map (·.move_ids)).flatten).filterMap
    db.getMove
  let afterDown := chainLoop (·.move_dest_ids) (chainFuel db) db seedIds
    ((moves.map (·.move_dest_ids)).flatten)
  chainLoop (·.move_orig_ids) (chainFuel db) db afterDown
    ((moves.map (·.move_orig_ids)).flatten)

/-- Embeds `_get_equivalent_picking_type` (wizard lines 189-212): exact match
on `sequence_code` in the new warehouse first, then fallback to the coarse
`code`. -/
def getEquivalentPickingType (db : DB) (oldPt : PickingType) (newWh : Warehouse) :
    Option PickingType :=
  match db.pickingTypes.find? (fun t =>
      t.warehouse_id == newWh.id && t.sequence_code == oldPt.sequence_code) with
  | some t => some t
  | none => db.pickingTypes.find? (fun t =>
      t.warehouse_id == newWh.id && t.code == oldPt.code)

/-- `location.usage`, with a dangling reference reading as no usage. -/
def usageOf (db : DB) (locId : Nat) : String :=
  ((db.getLocation locId).map (·.usage)).getD ""

/-- `picking.picking_type_id.warehouse_id`: the old warehouse of a picking. -/
def warehouseOfPicking (db : DB) (p : Picking) : Option Warehouse :=
  (db.getPickingType p.picking_type_id).bind (fun t => db.getWarehouse t.warehouse_id)

/-- Embeds `_get_new_source_location` (wizard lines 214-251). -/
def getNewSourceLocation (db : DB) (p : Picking) (newPt : PickingType)
    (newWh : Warehouse) : Nat :=
  let old := p.location_id
  if usageOf db old == "supplier" then old
  else if usageOf db old == "customer" then old
  else
    let oldWh := warehouseOfPicking db p
    if newPt.code == "internal" && (oldWh.map (·.lot_stock_id) == some old) then
      newWh.lot_stock_id
    else if newPt.code == "internal" &&
        (oldWh.map (·.wh_output_stock_loc_id) == some old) then
      newWh.wh_output_stock_loc_id
    else if newPt.code == "internal" &&
        (oldWh.map (·.wh_input_stock_loc_id) == some old) then
      newWh.wh_input_stock_loc_id
    else if newPt.code == "outgoing" then
      if newWh.delivery_steps == "pick_ship" || newWh.delivery_steps == "pick_pack_ship"
      then newWh.wh_output_stock_loc_id
      else newWh.lot_stock_id
    else if newPt.code == "incoming" then old
    else newPt.default_location_src_id.getD newWh.lot_stock_id

/-- Embeds `_get_new_dest_location` (wizard lines 253-290). -/
def getNewDestLocation (db : DB) (p : Picking) (newPt : PickingType)
    (newWh : Warehouse) : Nat :=
  let old := p.location_dest_id
  if usageOf db old == "customer" then old
  else if usageOf db old == "supplier" then old
  else
    let oldWh := warehouseOfPicking db p
    if newPt.code == "internal" &&
        (oldWh.map (·.wh_output_stock_loc_id) == some old) then
      newWh.wh_output_stock_loc_id
    else if newPt.code == "internal" && (oldWh.map (·.lot_stock_id) == some old) then
      newWh.lot_stock_id
    else if newPt.code == "internal" &&
        (oldWh.map (·.wh_pack_stock_loc_id) == some old) then
      newWh.wh_pack_stock_loc_id
    else if newPt.code == "outgoing" then old
    else if newPt.code == "incoming" then
      if newWh.reception_steps == "two_steps" || newWh.reception_steps == "three_steps"
      then newWh.wh_input_stock_loc_id
      else newWh.lot_stock_id
    else newPt.default_location_dest_id.getD newWh.lot_stock_id

def configErrMsg (warehouseName operationName : String) : String :=
  "Could not find equivalent operation type in warehouse " ++ warehouseName ++
    " for operation " ++ operationName

def missingTypeMsg : String := "picking has no operation type"

/-- The record update `_update_picking_warehouse` performs on the picking
once the new operation type is resolved. -/
def remapPickingRecord (p : Picking) (newPt : PickingType)
    (newLoc newDest : Nat) : Picking :=
  { p with
    picking_type_id := newPt.id,
    location_id := newLoc,
    location_dest_id := newDest }

/-- The record update `_update_picking_warehouse` performs on each owned
move (the same resolved operation type, warehouse and locations as its
picking). -/
def remapMoveFun (newPt : PickingType) (newWh : Warehouse)
    (newLoc newDest : Nat) : Move → Move :=
  fun m => { m with
    picking_type_id := newPt.id,
    warehouse_id := some newWh.id,
    location_id := newLoc,
    location_dest_id := newDest }

/-- The combined database write of `_update_picking_warehouse`. -/
def remapDB (db : DB) (p : Picking) (newPt : PickingType) (newWh : Warehouse) :
    DB :=
  (db.setPicking (remapPickingRecord p newPt
      (getNewSourceLocation db p newPt newWh)
      (getNewDestLocation db p newPt newWh))).updMoves p.move_ids
    (remapMoveFun newPt newWh (getNewSourceLocation db p newPt newWh)
      (getNewDestLocation db p newPt newWh))

/-- Embeds `_update_picking_warehouse` (wizard lines 153-187): resolve the
equivalent operation type (raising a UserError naming the operation and the
target warehouse when none exists), compute the new locations, write the
picking and then each of its moves.  A picking id absent from the database
cannot occur through the wizard (ids come from fetched records) and is a
no-op. -/
def updatePickingWarehouse (db : DB) (pid : Nat) (newWh : Warehouse) :
    Except Err DB :=
  match db.getPicking pid with
  | none => .ok db
  | some p =>
    match db.getPickingType p.picking_type_id with
    | none => .error (.userError missingTypeMsg)
    | some oldPt =>
      match getEquivalentPickingType db oldPt newWh with
      | none => .error (.userError (configErrMsg newWh.name oldPt.name))
      | some newPt => .ok (remapDB db p newPt newWh)

/-- The wizard record (stock.picking.change.warehouse fields). -/
structure ChangeWizard where
  picking_ids : List Nat
  current_warehouse_id : Option Nat
  new_warehouse_id : Option Nat
  include_chained_pickings : Bool
  deriving Repr, DecidableEq

def selectWarehouseMsg : String := "Please select a new warehouse."

def sameWarehouseMsg : String :=
  "New warehouse must be different from current warehouse."

def invalidStateMsg (names : String) : String :=
  "All pickings must be in Draft or Cancelled state. Please use Cancel and Back to Draft first. Invalid pickings: " ++ names

def sequential (db : DB) (pids : List Nat) (newWh : Warehouse) : Except Err DB :=
  pids.foldlM (fun acc pid => updatePickingWarehouse acc pid newWh) db

/-- Embeds `action_change_warehouse` (wizard lines 107-151): validates the
target warehouse, optionally expands the chain, requires every picking in the
working set to be in draft or cancel state, and remaps each picking in turn.
Performs no cancellation, draft restoration or re-confirmation itself. -/
def actionChangeWarehouse (db : DB) (w : ChangeWizard) : Except Err DB :=
  match w.new_warehouse_id with
  | none => .error (.userError selectWarehouseMsg)
  | some nwId =>
    if w.current_warehouse_id == some nwId then .error (.userError sameWarehouseMsg)
    else
      let pids := if w.include_chained_pickings then
        getAllChainedPickings db w.picking_ids else w.picking_ids
      let recs := pids.filterMap db.getPicking
      let invalid := recs.filter (fun p =>
        pickingState db p != "draft" && pickingState db p != "cancel")
      if !invalid.isEmpty then
        .error (.userError
          (invalidStateMsg (String.intercalate ", " (invalid.map (·.name)))))
      else
        match db.getWarehouse nwId with
        | none => .error (.userError selectWarehouseMsg)
        | some newWh => sequential db pids newWh

/-! ### Basic lookup and update lemmas -/

theorem find_map_cond {α : Type} (key : α → Nat) (cond : Nat → Bool) (f : α → α)
    (hf : ∀ x, cond (key x) = true → key (f x) = key x) (l : List α) (j : Nat) :
    ((l.map (fun x => if cond (key x) then f x else x)).find? (fun x => key x == j))
      = (l.find? (fun x => key x == j)).map (fun x => if cond j then f x else x) := by
  induction l with
  | nil => simp
  | cons a l ih =>
    by_cases h : key a = j
    · subst h
      by_cases hc : cond (key a)
      · simp [hc, hf a hc, List.find?]
      · simp [hc, List.find?]
    · have h1 : (key a == j) = false := by simp [h]
      by_cases hc : cond (key a)
      · have hk : key (f a) = key a := hf a hc
        simp [List.find?, hc, hk, h1, ih]
      · simp [List.find?, hc, h1, ih]

theorem getMove_id {db : DB} {j : Nat} {m : Move} (h : db.getMove j = some m) :
    m.id = j := by
  have := List.find?_some h
  simpa using this

theorem getPicking_id {db : DB} {j : Nat} {p : Picking}
    (h : db.getPicking j = some p) : p.id = j := by
  have := List.find?_some h
  simpa using this

/-- A member of `ids.filterMap db.getMove` is the canonical record of its id. -/
theorem mem_filterMap_getMove {db : DB} {ids : List Nat} {m : Move}
    (h : m ∈ ids.filterMap db.getMove) :
    db.getMove m.id = some m ∧ m.id ∈ ids := by
  rcases List.mem_filterMap.mp h with ⟨j, hj, hget⟩
  have hid : m.id = j := getMove_id hget
  rw [hid]; exact ⟨hget, hj⟩

theorem mem_filterMap_getPicking {db : DB} {ids : List Nat} {p : Picking}
    (h : p ∈ ids.filterMap db.getPicking) :
    db.getPicking p.id = some p ∧ p.id ∈ ids := by
  rcases List.mem_filterMap.mp h with ⟨j, hj, hget⟩
  have hid : p.id = j := getPicking_id hget
  rw [hid]; exact ⟨hget, hj⟩

theorem getMove_updMoves (db : DB) (ids : List Nat) (f : Move → Move)
    (hf : ∀ x, (f x).id = x.id) (j : Nat) :
    (db.updMoves ids f).getMove j
      = (db.getMove j).map (fun x => if ids.contains j then f x else x) := by
  unfold DB.updMoves DB.getMove
  exact find_map_cond (Move.id) (ids.contains ·) f (fun x _ => hf x) db.moves j

theorem getPicking_setPicking (db : DB) (p : Picking) (j : Nat) :
    (db.setPicking p).getPicking j
      = (db.getPicking j).map (fun x => if j == p.id then p else x) := by
  unfold DB.setPicking DB.getPicking
  have := find_map_cond (Picking.id) (· == p.id) (fun _ => p)
    (fun x hx => by
      have : x.id = p.id := by simpa using hx
      simp [this]) db.pickings j
  simpa using this

@[simp] theorem updMoves_pickings (db : DB) (ids : List Nat) (f : Move → Move) :
    (db.updMoves ids f).pickings = db.pickings := rfl

@[simp] theorem updMoves_pickingTypes (db : DB) (ids : List Nat) (f : Move → Move) :
    (db.updMoves ids f).pickingTypes = db.pickingTypes := rfl

@[simp] theorem updMoves_warehouses (db : DB) (ids : List Nat) (f : Move → Move) :
    (db.updMoves ids f).warehouses = db.warehouses := rfl

@[simp] theorem updMoves_locations (db : DB) (ids : List Nat) (f : Move → Move) :
    (db.updMoves ids f).locations = db.locations := rfl

@[simp] theorem setPicking_moves (db : DB) (p : Picking) :
    (db.setPicking p).moves = db.moves := rfl

@[simp] theorem setPicking_pickingTypes (db : DB) (p : Picking) :
    (db.setPicking p).pickingTypes = db.pickingTypes := rfl

@[simp] theorem setPicking_warehouses (db : DB) (p : Picking) :
    (db.setPicking p).warehouses = db.warehouses := rfl

@[simp] theorem setPicking_locations (db : DB) (p : Picking) :
    (db.setPicking p).locations = db.locations := rfl

@[simp] theorem cancelMove_id (m : Move) : (cancelMove m).id = m.id := rfl

@[simp] theorem draftMove_id (m : Move) : (draftMove m).id = m.id := by
  unfold draftMove; split <;> rfl

theorem getPicking_of_pickings_eq {db db' : DB} (h : db'.pickings = db.pickings) :
    ∀ j, db'.getPicking j = db.getPicking j := by
  intro j; unfold DB.getPicking; rw [h]

theorem getMove_of_moves_eq {db db' : DB} (h : db'.moves = db.moves) :
    ∀ j, db'.getMove j = db.getMove j := by
  intro j; unfold DB.getMove; rw [h]

/-! ### Frame properties of chain-preserving cancellation -/

/-- Everything the `preserve_move_chain` branch of `_action_cancel` can do to
the database: tables other than moves are untouched, and every move is either
untouched or — when it was live (neither `cancel` nor `done`) — replaced by
its cancelled version (which keeps `move_orig_ids`, `move_dest_ids` and
`procure_method`). -/
def CancelFrame (db db' : DB) : Prop :=
  db'.pickings = db.pickings ∧ db'.pickingTypes = db.pickingTypes ∧
  db'.warehouses = db.warehouses ∧ db'.locations = db.locations ∧
  ∀ j, db'.getMove j = db.getMove j ∨
    ∃ x, db.getMove j = some x ∧ x.state ≠ "cancel" ∧ x.state ≠ "done" ∧
      db'.getMove j = some (cancelMove x)

theorem cancelFrame_refl (db : DB) : CancelFrame db db :=
  ⟨rfl, rfl, rfl, rfl, fun _ => Or.inl rfl⟩

theorem cancelFrame_trans {db db1 db2 : DB} (h1 : CancelFrame db db1)
    (h2 : CancelFrame db1 db2) : CancelFrame db db2 := by
  obtain ⟨p1, t1, w1, l1, m1⟩ := h1
  obtain ⟨p2, t2, w2, l2, m2⟩ := h2
  refine ⟨p2.trans p1, t2.trans t1, w2.trans w1, l2.trans l1, fun j => ?_⟩
  rcases m1 j with h | ⟨x, hx, hxc, hxd, hx'⟩
  · rcases m2 j with h' | ⟨y, hy, hyc, hyd, hy'⟩
    · exact Or.inl (h'.trans h)
    · exact Or.inr ⟨y, h ▸ hy, hyc, hyd, hy'⟩
  · rcases m2 j with h' | ⟨y, hy, hyc, hyd, _⟩
    · exact Or.inr ⟨x, hx, hxc, hxd, h'.trans hx'⟩
    · rw [hx'] at hy
      cases hy
      exact absurd rfl hyc

theorem cancelFrame_preserves_cancel {db db' : DB} (h : CancelFrame db db')
    {j : Nat} {x : Move} (hx : db.getMove j = some x) (hs : x.state = "cancel") :
    db'.getMove j = some x := by
  rcases h.2.2.2.2 j with h' | ⟨y, hy, hyc, _, _⟩
  · rw [h', hx]
  · rw [hx] at hy; cases hy; exact absurd hs hyc

/-- The first write of the preserve-chain cancellation fits `CancelFrame`
whenever the done-validation passed. -/
theorem updMoves_cancel_frame (db : DB) (ids : List Nat)
    (hval : ((ids.filterMap db.getMove).any
      (fun m => m.state == "done" && !m.scrapped)) = false) :
    CancelFrame db (db.updMoves (toCancelIds db ids) cancelMove) := by
  refine ⟨rfl, rfl, rfl, rfl, fun j => ?_⟩
  rw [getMove_updMoves db _ cancelMove (fun x => rfl) j]
  by_cases hc : j ∈ toCancelIds db ids
  · rcases List.mem_map.mp hc with ⟨x, hxmem, hxid⟩
    have hxf := List.mem_filter.mp hxmem
    have hcan := mem_filterMap_getMove hxf.1
    have hstate := hxf.2
    simp only [Bool.and_eq_true, bne_iff_ne, ne_eq, Bool.not_eq_true',
      Bool.and_eq_false_iff, beq_eq_false_iff_ne, beq_iff_eq] at hstate
    have hnc : x.state ≠ "cancel" := hstate.1
    have hnd : x.state ≠ "done" := by
      intro hd
      have hsc : x.scrapped = false := by
        rcases hstate.2 with h' | h'
        · exact absurd hd h'
        · exact h'
      have hvx := (List.any_eq_false.mp hval) x hxf.1
      simp [hd, hsc] at hvx
    refine Or.inr ⟨x, ?_, hnc, hnd, ?_⟩
    · rw [hxid] at hcan; exact hcan.1
    · rw [hxid] at hcan
      rw [hcan.1]
      simp [hc]
  · simp [hc]

/-- If one pass of the cascade loop succeeds, and each re-entry fits
`CancelFrame`, the whole pass fits `CancelFrame`. -/
theorem cascadeGo_frame {next : DB → List Nat → Except Err DB}
    (hnext : ∀ db ids db', next db ids = .ok db' → CancelFrame db db') :
    ∀ rest : List Nat, ∀ db db', cascadeGo next db rest = .ok db' →
      CancelFrame db db' := by
  intro rest
  induction rest with
  | nil =>
    intro db db' h
    simp only [cascadeGo] at h
    cases h; exact cancelFrame_refl _
  | cons i rest ihr =>
    intro db db' h
    simp only [cascadeGo] at h
    split at h
    · exact ihr db db' h
    · split at h
      · split at h
        · simp at h
        · rename_i db1 ha
          exact cancelFrame_trans (hnext _ _ _ ha) (ihr db1 db' h)
      · exact ihr db db' h

/-- If a chain-preserving cancellation run succeeds, its effect fits
`CancelFrame`. -/
theorem actionCancelPreserve_frame : ∀ fuel : Nat, ∀ db ids db',
    actionCancelPreserve fuel db ids = .ok db' → CancelFrame db db' := by
  intro fuel
  induction fuel with
  | zero =>
    intro db ids db' h
    simp only [actionCancelPreserve] at h
    cases h; exact cancelFrame_refl _
  | succ fuel ih =>
    intro db ids db' h
    simp only [actionCancelPreserve] at h
    split at h
    · simp at h
    · rename_i hval
      have hval' : ((ids.filterMap db.getMove).any
          (fun m => m.state == "done" && !m.scrapped)) = false :=
        Bool.not_eq_true _ ▸ hval
      exact cancelFrame_trans (updMoves_cancel_frame db ids hval')
        (cascadeGo_frame (fun a b c hh => ih a b c hh) _ _ _ h)

/-- The validation precondition of `_action_cancel`: no targeted move is
done-and-not-scrapped. -/
def ValidTargets (db : DB) (ids : List Nat) : Prop :=
  ∀ m ∈ ids.filterMap db.getMove, ¬(m.state = "done" ∧ m.scrapped = false)

theorem validTargets_any_false {db : DB} {ids : List Nat}
    (hv : ValidTargets db ids) :
    ((ids.filterMap db.getMove).any (fun m => m.state == "done" && !m.scrapped))
      = false := by
  apply List.any_eq_false.mpr
  intro x hx
  have hx' := hv x hx
  simpa using hx'

/-- The cascade targets are always valid: they are filtered to be non-done. -/
theorem validTargets_destIdsOf (db : DB) (m : Move) :
    ValidTargets db (destIdsOf db m) := by
  intro x hx
  rcases mem_filterMap_getMove hx with ⟨hget, hmem⟩
  rcases List.mem_map.mp hmem with ⟨d, hdmem, hdid⟩
  have hdf := List.mem_filter.mp hdmem
  have hdcan := mem_filterMap_getMove hdf.1
  rw [hdid] at hdcan
  rw [hget] at hdcan
  have hdx : d = x := (Option.some.inj hdcan.1).symm
  intro hcontra
  have := hdf.2
  rw [hdx] at this
  simp only [bne_iff_ne, ne_eq] at this
  exact this hcontra.1

/-- A cascade pass always succeeds when each re-entry succeeds on valid
targets: cascade targets are non-done by construction. -/
theorem cascadeGo_ok {next : DB → List Nat → Except Err DB}
    (hnext : ∀ db ids, ValidTargets db ids → ∃ db', next db ids = .ok db') :
    ∀ rest : List Nat, ∀ db, ∃ db', cascadeGo next db rest = .ok db' := by
  intro rest
  induction rest with
  | nil => intro db; exact ⟨db, rfl⟩
  | cons i rest ihr =>
    intro db
    rcases hm : db.getMove i with _ | m
    · rcases ihr db with ⟨db', h'⟩
      refine ⟨db', ?_⟩
      simp only [cascadeGo]
      rw [hm]
      exact h'
    · by_cases hp : (m.propagate_cancel && allSiblingsCancelled db m) = true
      · rcases hnext db (destIdsOf db m) (validTargets_destIdsOf db m) with ⟨db1, h1⟩
        rcases ihr db1 with ⟨db', h'⟩
        refine ⟨db', ?_⟩
        simp only [cascadeGo]
        rw [hm]
        simp only [hp, if_true, h1]
        exact h'
      · rcases ihr db with ⟨db', h'⟩
        refine ⟨db', ?_⟩
        simp only [cascadeGo]
        rw [hm]
        simp only [Bool.not_eq_true] at hp
        simp only [hp, Bool.false_eq_true, if_false]
        exact h'

/-- A chain-preserving cancellation on valid targets succeeds. -/
theorem actionCancelPreserve_ok : ∀ fuel : Nat, ∀ db ids, ValidTargets db ids →
    ∃ db', actionCancelPreserve fuel db ids = .ok db' := by
  intro fuel
  induction fuel with
  | zero => intro db ids _; exact ⟨db, rfl⟩
  | succ fuel ih =>
    intro db ids hv
    rcases cascadeGo_ok (fun a b hvb => ih a b hvb) (toCancelIds db ids)
        (db.updMoves (toCancelIds db ids) cancelMove) with ⟨db', h'⟩
    refine ⟨db', ?_⟩
    simp only [actionCancelPreserve]
    rw [validTargets_any_false hv]
    simpa using h'

/-- If a preserve-chain cancellation with positive fuel succeeds, every
targeted live move ends as its cancelled version. -/
theorem actionCancelPreserve_cancels {fuel : Nat} {db : DB} {ids : List Nat}
    {db' : DB} (h : actionCancelPreserve (fuel + 1) db ids = .ok db')
    {j : Nat} {x : Move} (hj : j ∈ ids) (hx : db.getMove j = some x)
    (hxc : x.state ≠ "cancel") (hxd : x.state ≠ "done") :
    db'.getMove j = some (cancelMove x) := by
  simp only [actionCancelPreserve] at h
  split at h
  · simp at h
  · have hxid : x.id = j := getMove_id hx
    have hmem : j ∈ toCancelIds db ids := by
      apply List.mem_map.mpr
      refine ⟨x, ?_, hxid⟩
      apply List.mem_filter.mpr
      refine ⟨List.mem_filterMap.mpr ⟨j, hj, hx⟩, ?_⟩
      simp [hxc, hxd]
    have hdb1 : (db.updMoves (toCancelIds db ids) cancelMove).getMove j
        = some (cancelMove x) := by
      rw [getMove_updMoves db (toCancelIds db ids) cancelMove (fun _ => rfl) j, hx]
      simp [hmem]
    have hframe := cascadeGo_frame
      (fun a b c hh => actionCancelPreserve_frame fuel a b c hh) _ _ _ h
    exact cancelFrame_preserves_cancel hframe hdb1 rfl

/-! ### Lemmas about `action_back_to_draft` -/

theorem actionBackToDraft_err {db : DB} {ids : List Nat}
    (hx : ∃ m ∈ ids.filterMap db.getMove, m.state ≠ "cancel") :
    actionBackToDraft db ids = .error (.userError backToDraftMsg) := by
  rcases hx with ⟨m, hm, hs⟩
  have hany : ((ids.filterMap db.getMove).any (fun m => m.state != "cancel")) = true := by
    refine List.any_eq_true.mpr ⟨m, hm, ?_⟩
    simpa using hs
  simp only [actionBackToDraft, hany, if_true]

theorem actionBackToDraft_ok {db : DB} {ids : List Nat}
    (hall : ∀ m ∈ ids.filterMap db.getMove, m.state = "cancel") :
    ∃ db', actionBackToDraft db ids = .ok db' ∧
      (∀ j x, j ∈ ids → db.getMove j = some x →
        db'.getMove j = some (draftMove x)) ∧
      (∀ j, j ∉ ids → db'.getMove j = db.getMove j) ∧
      db'.pickings = db.pickings ∧ db'.pickingTypes = db.pickingTypes ∧
      db'.warehouses = db.warehouses ∧ db'.locations = db.locations := by
  have hval : ((ids.filterMap db.getMove).any (fun m => m.state != "cancel")) = false := by
    apply List.any_eq_false.mpr
    intro m hm
    simpa using hall m hm
  simp only [actionBackToDraft, hval, Bool.false_eq_true, if_false]
  set self := ids.filterMap db.getMove with hself
  set withChain := (self.filter (fun m => !m.move_orig_ids.isEmpty)).map (·.id) with hwc
  set withoutChain := (self.filter (fun m => m.move_orig_ids.isEmpty)).map (·.id) with hwoc
  set f1 : Move → Move :=
    (fun m => { m with state := "draft", procure_method := "make_to_order" }) with hf1
  set f2 : Move → Move := (fun m => { m with state := "draft" }) with hf2
  refine ⟨(db.updMoves withChain f1).updMoves withoutChain f2, rfl, ?_, ?_, rfl, rfl, rfl, rfl⟩
  · intro j x hj hx
    have hxid : x.id = j := getMove_id hx
    have hxself : x ∈ self := List.mem_filterMap.mpr ⟨j, hj, hx⟩
    have hcanon : ∀ m, m ∈ self → m.id = j → m = x := by
      intro m hm hmid
      have h1 := (mem_filterMap_getMove hm).1
      rw [hmid] at h1
      rw [hx] at h1
      exact (Option.some.inj h1).symm
    rw [getMove_updMoves _ withoutChain f2 (fun _ => rfl) j,
      getMove_updMoves db withChain f1 (fun _ => rfl) j, hx]
    by_cases ho : x.move_orig_ids.isEmpty
    · have hmem2 : j ∈ withoutChain := by
        apply List.mem_map.mpr
        exact ⟨x, List.mem_filter.mpr ⟨hxself, by simpa using ho⟩, hxid⟩
      have hmem1 : j ∉ withChain := by
        intro hc
        rcases List.mem_map.mp hc with ⟨m, hmf, hmid⟩
        have hmfil := List.mem_filter.mp hmf
        have := hcanon m hmfil.1 hmid
        rw [this] at hmfil
        have := hmfil.2
        simp [ho] at this
      simp [hmem1, hmem2, draftMove, ho, f1, f2]
    · have hmem1 : j ∈ withChain := by
        apply List.mem_map.mpr
        exact ⟨x, List.mem_filter.mpr ⟨hxself, by simpa using ho⟩, hxid⟩
      have hmem2 : j ∉ withoutChain := by
        intro hc
        rcases List.mem_map.mp hc with ⟨m, hmf, hmid⟩
        have hmfil := List.mem_filter.mp hmf
        have := hcanon m hmfil.1 hmid
        rw [this] at hmfil
        have := hmfil.2
        simp [ho] at this
      simp [hmem1, hmem2, draftMove, ho, f1, f2]
  · intro j hj
    have hmem1 : j ∉ withChain := by
      intro hc
      rcases List.mem_map.mp hc with ⟨m, hmf, hmid⟩
      have hmfil := List.mem_filter.mp hmf
      have := (mem_filterMap_getMove hmfil.1).2
      rw [hmid] at this
      exact hj this
    have hmem2 : j ∉ withoutChain := by
      intro hc
      rcases List.mem_map.mp hc with ⟨m, hmf, hmid⟩
      have hmfil := List.mem_filter.mp hmf
      have := (mem_filterMap_getMove hmfil.1).2
      rw [hmid] at this
      exact hj this
    rw [getMove_updMoves _ withoutChain f2 (fun _ => rfl) j,
      getMove_updMoves db withChain f1 (fun _ => rfl) j]
    simp [hmem1, hmem2]

/-! ### Concrete example records -/

/-- Shorthand for building example moves. -/
def mkMove (i : Nat) (st : String) (orig dest : List Nat) (pkid : Option Nat)
    (prop : Bool) (scr : Bool) : Move :=
  { id := i, state := st, scrapped := scr, picked := false,
    propagate_cancel := prop, procure_method := "make_to_stock",
    move_orig_ids := orig, move_dest_ids := dest, picking_id := pkid,
    picking_type_id := 0, warehouse_id := none, location_id := 0,
    location_dest_id := 0, move_line_ids := [] }

/-- Shorthand for building example pickings. -/
def mkPicking (i : Nat) (nm : String) (mids : List Nat) : Picking :=
  { id := i, name := nm, move_ids := mids, picking_type_id := 0,
    location_id := 0, location_dest_id := 0 }

/-! ## C4: effect of chain-preserving cancellation -/

/-- C4 theorem (amended): for targets with no done-and-not-scrapped move,
chain-preserving cancellation succeeds; every targeted move that is neither
cancelled nor done ends with state `cancel`, `picked = false` and its move
lines cleared, while its `move_orig_ids`, `move_dest_ids` and
`procure_method` are unchanged; and the whole run fits `CancelFrame` (so in
particular done-and-scrapped targets are among the moves left untouched). -/
theorem c4_theorem {fuel : Nat} {db : DB} {ids : List Nat}
    (hv : ValidTargets db ids) :
    ∃ db', actionCancelPreserve (fuel + 1) db ids = .ok db' ∧
      CancelFrame db db' ∧
      ∀ j x, j ∈ ids → db.getMove j = some x → x.state ≠ "cancel" →
        x.state ≠ "done" →
        ∃ x', db'.getMove j = some x' ∧ x'.state = "cancel" ∧
          x'.picked = false ∧ x'.move_line_ids = [] ∧
          x'.move_orig_ids = x.move_orig_ids ∧
          x'.move_dest_ids = x.move_dest_ids ∧
          x'.procure_method = x.procure_method := by
  rcases actionCancelPreserve_ok (fuel + 1) db ids hv with ⟨db', h⟩
  refine ⟨db', h, actionCancelPreserve_frame _ _ _ _ h, ?_⟩
  intro j x hj hx hc hd
  exact ⟨cancelMove x, actionCancelPreserve_cancels h hj hx hc hd,
    rfl, rfl, rfl, rfl, rfl, rfl⟩

/-- Example for the C4 witness: one confirmed move with a reservation. -/
def c4wdb : DB :=
  { moves := [{ mkMove 1 "confirmed" [7] [8] none false false with
      picked := true, move_line_ids := [41], procure_method := "make_to_order" }],
    pickings := [], pickingTypes := [], warehouses := [], locations := [] }

/-- Witness for C4: the theorem applied to a concrete confirmed move. -/
theorem c4_witness :
    ∃ db', actionCancelPreserve 2 c4wdb [1] = .ok db' ∧
      CancelFrame c4wdb db' ∧
      ∀ j x, j ∈ [1] → c4wdb.getMove j = some x → x.state ≠ "cancel" →
        x.state ≠ "done" →
        ∃ x', db'.getMove j = some x' ∧ x'.state = "cancel" ∧
          x'.picked = false ∧ x'.move_line_ids = [] ∧
          x'.move_orig_ids = x.move_orig_ids ∧
          x'.move_dest_ids = x.move_dest_ids ∧
          x'.procure_method = x.procure_method :=
  @c4_theorem 1 c4wdb [1] (by unfold ValidTargets; decide)

/-- Example for the C4 counterexample: one done-and-scrapped move, which the
claim's precondition allows and which is not yet cancelled. -/
def c4cdb : DB :=
  { moves := [mkMove 1 "done" [] [] none false true],
    pickings := [], pickingTypes := [], warehouses := [], locations := [] }

/-- C4 counterexample: a done-and-scrapped move satisfies the claim's
precondition (it is not done-and-not-scrapped) and is not yet cancelled, but
chain-preserving cancellation leaves it in state `done` (the database is
returned unchanged), contradicting "sets each not-yet-cancelled move's state
to cancel". -/
theorem c4_counterexample :
    (∀ m ∈ c4cdb.moves, ¬(m.state = "done" ∧ m.scrapped = false)) ∧
    (c4cdb.getMove 1).map (·.state) = some "done" ∧
    actionCancelPreserve (cancelFuel c4cdb) c4cdb [1] = .ok c4cdb := by
  refine ⟨by decide, by decide, ?_⟩
  rfl

/-! ## C6: `action_back_to_draft` -/

/-- C6 theorem: if every targeted move is in `cancel` state,
`action_back_to_draft` succeeds and sets each targeted move to `draft`,
setting `procure_method = make_to_order` exactly for moves with at least one
predecessor and leaving it unchanged otherwise (chain links untouched); if
some targeted move is not in `cancel` state it fails with the UserError and,
the embedding being state-passing, no move changes. -/
theorem c6_theorem (db : DB) (ids : List Nat) :
    ((∃ m ∈ ids.filterMap db.getMove, m.state ≠ "cancel") →
      actionBackToDraft db ids = .error (.userError backToDraftMsg)) ∧
    ((∀ m ∈ ids.filterMap db.getMove, m.state = "cancel") →
      ∃ db', actionBackToDraft db ids = .ok db' ∧
        ∀ j x, j ∈ ids → db.getMove j = some x →
          ∃ x', db'.getMove j = some x' ∧ x'.state = "draft" ∧
            x'.procure_method =
              (if x.move_orig_ids.isEmpty then x.procure_method
               else "make_to_order") ∧
            x'.move_orig_ids = x.move_orig_ids ∧
            x'.move_dest_ids = x.move_dest_ids) := by
  constructor
  · exact fun hx => actionBackToDraft_err hx
  · intro hall
    rcases actionBackToDraft_ok hall with ⟨db', hok, hpost, -, -⟩
    refine ⟨db', hok, ?_⟩
    intro j x hj hx
    refine ⟨draftMove x, hpost j x hj hx, ?_, ?_, ?_, ?_⟩ <;>
      · unfold draftMove
        split <;> simp_all

/-- Example for the C6 witness: a cancelled chained move and a cancelled
chainless move (success case), and a confirmed move (failure case). -/
def c6wdb : DB :=
  { moves := [mkMove 1 "cancel" [5] [] none false false,
              mkMove 2 "cancel" [] [] none false false,
              mkMove 3 "confirmed" [] [] none false false],
    pickings := [], pickingTypes := [], warehouses := [], locations := [] }

/-- Witness for C6: both branches of the theorem at concrete inputs. -/
theorem c6_witness :
    (actionBackToDraft c6wdb [1, 3] = .error (.userError backToDraftMsg)) ∧
    (∃ db', actionBackToDraft c6wdb [1, 2] = .ok db' ∧
      ∀ j x, j ∈ [1, 2] → c6wdb.getMove j = some x →
        ∃ x', db'.getMove j = some x' ∧ x'.state = "draft" ∧
          x'.procure_method =
            (if x.move_orig_ids.isEmpty then x.procure_method
             else "make_to_order") ∧
          x'.move_orig_ids = x.move_orig_ids ∧
          x'.move_dest_ids = x.move_dest_ids) :=
  ⟨(c6_theorem c6wdb [1, 3]).1 (by decide),
   (c6_theorem c6wdb [1, 2]).2 (by decide)⟩

/-! ## C10: permission check before any other validation -/

/-- C10 theorem: without the authorization role, both entry points fail with
the AccessError for every database and target set whatsoever — in particular
also when the targets contain done pickings, so the permission failure
precedes the done-state check; and no state is touched. -/
theorem c10_theorem (db : DB) (pids : List Nat) :
    actionCancelBackToDraft db false pids = .error (.accessError permMsg) ∧
    actionOpenChangeWarehouseWizard db false pids
      = .error (.accessError permMsg) := by
  constructor
  · simp [actionCancelBackToDraft, checkCancelBackToDraftAllowed]
  · simp [actionOpenChangeWarehouseWizard, checkCancelBackToDraftAllowed]

/-! ### Lemmas about the derived picking state -/

theorem pickingState_ne_cancel {db : DB} {p : Picking} {m : Move}
    (hm : m ∈ movesOf db p) (hs : m.state ≠ "cancel") :
    pickingState db p ≠ "cancel" := by
  intro h
  simp only [pickingState] at h
  split at h
  · exact absurd h (by decide)
  · split at h
    · exact absurd h (by decide)
    · split at h
      · rename_i hall
        have := List.all_eq_true.mp hall (m.state)
          (List.mem_map.mpr ⟨m, hm, rfl⟩)
        simp at this
        exact hs this
      · split at h
        · exact absurd h (by decide)
        · split at h
          · exact absurd h (by decide)
          · split at h
            · exact absurd h (by decide)
            · exact absurd h (by decide)

theorem pickingState_live {db : DB} {p : Picking} {m : Move}
    (hm : m ∈ movesOf db p)
    (hs : m.state = "waiting" ∨ m.state = "confirmed" ∨ m.state = "assigned") :
    pickingState db p = "waiting" ∨ pickingState db p = "confirmed" ∨
      pickingState db p = "assigned" := by
  have hmem : m.state ∈ (movesOf db p).map (·.state) :=
    List.mem_map.mpr ⟨m, hm, rfl⟩
  have h1 : ((movesOf db p).map (·.state)).isEmpty = false := by
    rcases hl : (movesOf db p).map (·.state) with _ | ⟨a, l⟩
    · rw [hl] at hmem; cases hmem
    · rw [hl]; rfl
  have h2 : (((movesOf db p).map (·.state)).all (· == "draft")) = false := by
    apply Bool.eq_false_iff.mpr
    intro hall
    have := List.all_eq_true.mp hall (m.state) hmem
    rcases hs with h | h | h <;> rw [h] at this <;> exact absurd this (by decide)
  have h3 : (((movesOf db p).map (·.state)).all (· == "cancel")) = false := by
    apply Bool.eq_false_iff.mpr
    intro hall
    have := List.all_eq_true.mp hall (m.state) hmem
    rcases hs with h | h | h <;> rw [h] at this <;> exact absurd this (by decide)
  have h4 : (((movesOf db p).map (·.state)).all
      (fun s => s == "done" || s == "cancel")) = false := by
    apply Bool.eq_false_iff.mpr
    intro hall
    have := List.all_eq_true.mp hall (m.state) hmem
    rcases hs with h | h | h <;> rw [h] at this <;> exact absurd this (by decide)
  simp only [pickingState, h1, h2, h3, h4, Bool.false_eq_true, if_false]
  split
  · right; left; rfl
  · split
    · left; rfl
    · right; right; rfl

/-! ## C1: what executing the change-warehouse session does -/

/-- Working set for the C1 failing input: one confirmed delivery picking. -/
def c1db : DB :=
  { moves := [mkMove 1 "confirmed" [] [] (some 1) false false],
    pickings := [mkPicking 1 "P1" [1]],
    pickingTypes := [],
    warehouses :=
      [{ id := 10, name := "WH1", lot_stock_id := 0, wh_output_stock_loc_id := 0,
         wh_input_stock_loc_id := 0, wh_pack_stock_loc_id := 0,
         delivery_steps := "pick_ship", reception_steps := "one_step" },
       { id := 20, name := "WH2", lot_stock_id := 0, wh_output_stock_loc_id := 0,
         wh_input_stock_loc_id := 0, wh_pack_stock_loc_id := 0,
         delivery_steps := "pick_ship", reception_steps := "one_step" }],
    locations := [] }

/-- The C1 session: picking 1, current warehouse 10, target warehouse 20. -/
def c1wiz : ChangeWizard :=
  { picking_ids := [1], current_warehouse_id := some 10,
    new_warehouse_id := some 20, include_chained_pickings := true }

/-- C1 theorem (evaluating the code at the failing input): on a working set
containing a picking that is not in cancel state (here a confirmed picking,
with a different target warehouse selected), `action_change_warehouse` raises
the UserError telling the user to run Cancel and Back to Draft first, instead
of cancelling the document with chain preservation and restoring it to draft
as the spec, the wizard-opening docstring and the module tests promise. -/
theorem c1_theorem :
    actionChangeWarehouse c1db c1wiz
      = .error (.userError (invalidStateMsg "P1")) := rfl

/-! ## C8: behaviour on pickings containing a done move -/

/-- C8 theorem (amended): if some targeted picking contains a done
non-scrapped move, `action_cancel_back_to_draft` fails with the UserError of
`_action_cancel` (raised before any write; the embedding returns the error
with no database, matching transactional abort).  The wizard-opening entry
point, however, checks only the derived picking-level state: it raises
exactly when some targeted picking's state is `done` (and it never writes —
its embedding returns only the action payload). -/
theorem c8_theorem {db : DB} {pids : List Nat} {pid : Nat} {p : Picking}
    {mid : Nat} {m : Move}
    (hpin : pid ∈ pids) (hp : db.getPicking pid = some p)
    (hmid : mid ∈ p.move_ids) (hm : db.getMove mid = some m)
    (hdone : m.state = "done") (hscr : m.scrapped = false) :
    actionCancelBackToDraft db true pids
      = .error (.userError doneCancelMsg) ∧
    (pickingState db p = "done" →
      ∃ names, actionOpenChangeWarehouseWizard db true pids
        = .error (.userError (cannotChangeDoneMsg names))) := by
  have hmmem : m ∈ movesOf db p := List.mem_filterMap.mpr ⟨mid, hmid, hm⟩
  have hpself : p ∈ pids.filterMap db.getPicking :=
    List.mem_filterMap.mpr ⟨pid, hpin, hp⟩
  constructor
  · have hpsne : pickingState db p ≠ "cancel" :=
      pickingState_ne_cancel hmmem (by rw [hdone]; decide)
    have hpptc : p ∈ pickingsToCancel db pids := by
      rw [pickingsToCancel]
      exact List.mem_filter.mpr ⟨hpself, by simpa using hpsne⟩
    have hpid : p.id = pid := getPicking_id hp
    have hmidmem : mid ∈ ((((pickingsToCancel db pids).map (·.id)).filterMap
        db.getPicking).map (·.move_ids)).flatten := by
      apply List.mem_flatten.mpr
      refine ⟨p.move_ids, List.mem_map.mpr ⟨p, ?_, rfl⟩, hmid⟩
      apply List.mem_filterMap.mpr
      refine ⟨p.id, List.mem_map.mpr ⟨p, hpptc, rfl⟩, ?_⟩
      rw [hpid]; exact hp
    have hany : ((((((pickingsToCancel db pids).map (·.id)).filterMap
        db.getPicking).map (·.move_ids)).flatten.filterMap db.getMove).any
          (fun x => x.state == "done" && !x.scrapped)) = true := by
      refine List.any_eq_true.mpr ⟨m, List.mem_filterMap.mpr ⟨mid, hmidmem, hm⟩, ?_⟩
      simp [hdone, hscr]
    have hcancel : pickingActionCancelPreserve db
        ((pickingsToCancel db pids).map (·.id))
        = .error (.userError doneCancelMsg) := by
      simp only [pickingActionCancelPreserve, cancelFuel, actionCancelPreserve]
      rw [hany]
      simp
    have hne : ((pickingsToCancel db pids).isEmpty) = false := by
      rcases hl : pickingsToCancel db pids with _ | ⟨a, l⟩
      · rw [hl] at hpptc; cases hpptc
      · rfl
    have hphase : cancelPhase db pids = .error (.userError doneCancelMsg) := by
      simp only [cancelPhase, hne, Bool.false_eq_true, if_false, hcancel]
    simp only [actionCancelBackToDraft, checkCancelBackToDraftAllowed,
      Bool.not_true, Bool.false_eq_true, if_false, hphase]
  · intro hps
    have hpdone : p ∈ (pids.filterMap db.getPicking).filter
        (fun q => pickingState db q == "done") :=
      List.mem_filter.mpr ⟨hpself, by simp [hps]⟩
    have hne : (((pids.filterMap db.getPicking).filter
        (fun q => pickingState db q == "done")).isEmpty) = false := by
      rcases hl : (pids.filterMap db.getPicking).filter
          (fun q => pickingState db q == "done") with _ | ⟨a, l⟩
      · rw [hl] at hpdone; cases hpdone
      · rfl
    refine ⟨String.intercalate ", " (((pids.filterMap db.getPicking).filter
      (fun q => pickingState db q == "done")).map (·.name)), ?_⟩
    simp only [actionOpenChangeWarehouseWizard, checkCancelBackToDraftAllowed,
      Bool.not_true, Bool.false_eq_true, if_false, hne]
    simp

/-- Witness database for C8: a picking whose single move is done and not
scrapped, so its derived state is `done`. -/
def c8wdb : DB :=
  { moves := [mkMove 1 "done" [] [] (some 1) false false],
    pickings := [mkPicking 1 "DONEPICK" [1]],
    pickingTypes := [], warehouses := [], locations := [] }

/-- Witness for C8: both conclusions of the theorem at a concrete input. -/
theorem c8_witness :
    actionCancelBackToDraft c8wdb true [1]
      = .error (.userError doneCancelMsg) ∧
    ∃ names, actionOpenChangeWarehouseWizard c8wdb true [1]
      = .error (.userError (cannotChangeDoneMsg names)) := by
  have h := @c8_theorem c8wdb [1] 1 (mkPicking 1 "DONEPICK" [1]) 1
    (mkMove 1 "done" [] [] (some 1) false false)
    (by decide) (by decide) (by decide) (by decide) (by decide) (by decide)
  exact ⟨h.1, h.2 (by decide)⟩

/-- Counterexample database for C8: a picking containing a done non-scrapped
move next to a confirmed one, so its derived state is `confirmed`. -/
def c8cdb : DB :=
  { moves := [mkMove 1 "done" [] [] (some 1) false false,
              mkMove 2 "confirmed" [] [] (some 1) false false],
    pickings := [mkPicking 1 "MIXED" [1, 2]],
    pickingTypes := [], warehouses := [], locations := [] }

/-- C8 counterexample: picking 1 contains a done non-scrapped move, yet
`action_open_change_warehouse_wizard` opens the wizard without raising (the
picking-level state is `confirmed`, not `done`), contradicting the claim that
both entry points raise for every picking containing a done non-scrapped
move. -/
theorem c8_counterexample :
    (c8cdb.getPicking 1).map (·.move_ids) = some [1, 2] ∧
    (c8cdb.getMove 1).map (fun m => (m.state, m.scrapped)) = some ("done", false) ∧
    pickingState c8cdb (mkPicking 1 "MIXED" [1, 2]) = "confirmed" ∧
    actionOpenChangeWarehouseWizard c8cdb true [1] = .ok [1] :=
  ⟨by decide, by decide, by decide, rfl⟩


/-! ## C3: the cascade condition of chain-preserving cancellation -/

@[simp] theorem cancelMove_dest (m : Move) :
    (cancelMove m).move_dest_ids = m.move_dest_ids := rfl

@[simp] theorem cancelMove_orig (m : Move) :
    (cancelMove m).move_orig_ids = m.move_orig_ids := rfl

@[simp] theorem cancelMove_state (m : Move) :
    (cancelMove m).state = "cancel" := rfl

@[simp] theorem cancelMove_propagate (m : Move) :
    (cancelMove m).propagate_cancel = m.propagate_cancel := rfl

/-- Cancelling just the move `m` itself does not change the pooled sibling
condition the cascade evaluates afterwards: sibling records other than `m`
are untouched and `m` is excluded from the pool by the code. -/
theorem siblings_stable {db : DB} {i : Nat} {m : Move}
    (hm : db.getMove i = some m) :
    allSiblingsCancelled (db.updMoves [i] cancelMove) (cancelMove m)
      = allSiblingsCancelled db m := by
  have hstep1 : ∀ l : List Nat,
      ((l.filterMap (db.updMoves [i] cancelMove).getMove).map (·.move_orig_ids))
        = ((l.filterMap db.getMove).map (·.move_orig_ids)) := by
    intro l
    induction l with
    | nil => rfl
    | cons k l ihl =>
      rw [List.filterMap_cons, List.filterMap_cons,
        getMove_updMoves db [i] cancelMove (fun _ => rfl) k]
      rcases hk : db.getMove k with _ | x
      · simpa using ihl
      · simp only [Option.map_some']
        split <;> simp [ihl]
  have hstep2 : ∀ L : List Nat,
      (((L.filterMap (db.updMoves [i] cancelMove).getMove).filter
        (fun s => s.id != m.id)).all (fun s => s.state == "cancel"))
      = (((L.filterMap db.getMove).filter (fun s => s.id != m.id)).all
        (fun s => s.state == "cancel")) := by
    intro L
    induction L with
    | nil => rfl
    | cons k L ihl =>
      rw [List.filterMap_cons, List.filterMap_cons,
        getMove_updMoves db [i] cancelMove (fun _ => rfl) k]
      rcases hk : db.getMove k with _ | x
      · simpa using ihl
      · by_cases hki : k = i
        · subst hki
          have hx : x = m := by
            rw [hm] at hk
            exact (Option.some.inj hk).symm
          subst hx
          simp [ihl]
        · have hc : ([i].contains k) = false := by simp [hki]
          simp only [Option.map_some', hc, Bool.false_eq_true, if_false]
          by_cases hpx : (x.id != m.id) = true <;> simp [hpx, ihl]
  unfold allSiblingsCancelled siblingMoves
  simp only [cancelMove_dest, cancelMove_id]
  rw [hstep1 m.move_dest_ids]
  exact hstep2 _

/-- C3 theorem (amended): when a single live move `m` is cancelled with chain
preservation, its live successors are cascaded to `cancel` exactly when
`m.propagate_cancel` is set *and* the pooled condition holds: every other
predecessor of every successor of `m` (all successors pooled together) is
already cancelled.  When the pooled condition fails — e.g. because one
successor has a live alternate predecessor — no successor is cancelled, not
even a successor all of whose own other predecessors are cancelled.  The
recursion carries the same preserve-chain flag (the nested call is the same
`actionCancelPreserve`). -/
theorem c3_theorem {fuel : Nat} {db : DB} {i : Nat} {m : Move} {did : Nat}
    {dm : Move}
    (hm : db.getMove i = some m)
    (hmc : m.state ≠ "cancel") (hmd : m.state ≠ "done")
    (hd : did ∈ m.move_dest_ids) (hdm : db.getMove did = some dm)
    (hne : did ≠ i)
    (hdc : dm.state ≠ "cancel") (hdd : dm.state ≠ "done") :
    ∃ db', actionCancelPreserve (fuel + 2) db [i] = .ok db' ∧
      ∃ dm', db'.getMove did = some dm' ∧
        dm'.state = (if m.propagate_cancel && allSiblingsCancelled db m
          then "cancel" else dm.state) := by
  have hmid : m.id = i := getMove_id hm
  have hself : ([i].filterMap db.getMove) = [m] := by
    simp [List.filterMap_cons, hm]
  have hany : (([i].filterMap db.getMove).any
      (fun x => x.state == "done" && !x.scrapped)) = false := by
    rw [hself]
    simp [hmd]
  have htc : toCancelIds db [i] = [i] := by
    rw [toCancelIds, hself]
    simp [hmc, hmd, hmid]
  have hg1 : (db.updMoves [i] cancelMove).getMove i = some (cancelMove m) := by
    rw [getMove_updMoves db [i] cancelMove (fun _ => rfl) i, hm]
    simp
  have hgd : (db.updMoves [i] cancelMove).getMove did = some dm := by
    rw [getMove_updMoves db [i] cancelMove (fun _ => rfl) did, hdm]
    simp [hne]
  have hrun : actionCancelPreserve (fuel + 2) db [i]
      = cascadeGo (fun dbc jds => actionCancelPreserve (fuel + 1) dbc jds)
          (db.updMoves [i] cancelMove) [i] := by
    simp only [actionCancelPreserve, hany, Bool.false_eq_true, if_false, htc]
  have hsib := siblings_stable hm
  by_cases hcond : (m.propagate_cancel && allSiblingsCancelled db m) = true
  · have hdmem : did ∈ destIdsOf (db.updMoves [i] cancelMove) (cancelMove m) := by
      rw [destIdsOf]
      apply List.mem_map.mpr
      refine ⟨dm, List.mem_filter.mpr ⟨?_, ?_⟩, getMove_id hgd⟩
      · exact List.mem_filterMap.mpr ⟨did, by simpa using hd, hgd⟩
      · simpa using hdd
    rcases actionCancelPreserve_ok (fuel + 1) (db.updMoves [i] cancelMove)
        (destIdsOf (db.updMoves [i] cancelMove) (cancelMove m))
        (validTargets_destIdsOf _ _) with ⟨db2, h2⟩
    refine ⟨db2, ?_, cancelMove dm, ?_, ?_⟩
    · rw [hrun]
      simp only [cascadeGo, hg1]
      rw [if_pos (by rw [cancelMove_propagate, hsib]; exact hcond)]
      rw [h2]
    · exact actionCancelPreserve_cancels h2 hdmem hgd hdc hdd
    · rw [if_pos hcond, cancelMove_state]
  · refine ⟨db.updMoves [i] cancelMove, ?_, dm, hgd, ?_⟩
    · rw [hrun]
      simp only [cascadeGo, hg1]
      rw [if_neg (by rw [cancelMove_propagate, hsib]; exact hcond)]
    · rw [if_neg hcond]

/-- Witness database for C3: move 1 (propagate_cancel) with successors 2 and
3; 2 has the alternate predecessor 4.  With move 4 cancelled the pooled
condition holds and the cascade fires. -/
def c3wdb : DB :=
  { moves := [mkMove 1 "confirmed" [] [2, 3] none true false,
              mkMove 2 "waiting" [1, 4] [] none false false,
              mkMove 3 "waiting" [1] [] none false false,
              mkMove 4 "cancel" [] [2] none false false],
    pickings := [], pickingTypes := [], warehouses := [], locations := [] }

/-- Witness for C3: the theorem applied at a concrete input (here the pooled
condition holds, so successor 3 ends cancelled). -/
theorem c3_witness :
    ∃ db', actionCancelPreserve 3 c3wdb [1] = .ok db' ∧
      ∃ dm', db'.getMove 3 = some dm' ∧
        dm'.state = (if (mkMove 1 "confirmed" [] [2, 3] none true
            false).propagate_cancel && allSiblingsCancelled c3wdb
              (mkMove 1 "confirmed" [] [2, 3] none true false)
          then "cancel" else (mkMove 3 "waiting" [1] [] none false false).state) :=
  @c3_theorem 1 c3wdb 1 (mkMove 1 "confirmed" [] [2, 3] none true false) 3
    (mkMove 3 "waiting" [1] [] none false false)
    (by decide) (by decide) (by decide) (by decide) (by decide) (by decide)
    (by decide) (by decide)

/-- Counterexample database for C3: move 1 (propagate_cancel) with successors
2 and 3; successor 2 has the live alternate predecessor 4 (state confirmed),
successor 3 has no predecessor other than move 1. -/
def c3cdb : DB :=
  { moves := [mkMove 1 "confirmed" [] [2, 3] none true false,
              mkMove 2 "waiting" [1, 4] [] none false false,
              mkMove 3 "waiting" [1] [] none false false,
              mkMove 4 "confirmed" [] [2] none false false],
    pickings := [], pickingTypes := [], warehouses := [], locations := [] }

/-- C3 counterexample: move 1 is cancelled with chain preservation and has
`propagate_cancel = true`; successor move 3 has no other predecessor (all of
*its* other predecessors are vacuously cancelled), so the claim requires it
to be cascaded to `cancel` — but because the code pools the condition over
all successors and successor 2 has the live alternate predecessor 4, move 3
stays in state `waiting`. -/
theorem c3_counterexample :
    (c3cdb.getMove 1).map (fun x => (x.propagate_cancel, x.state, x.move_dest_ids))
      = some (true, "confirmed", [2, 3]) ∧
    (c3cdb.getMove 3).map (fun x => (x.state, x.move_orig_ids))
      = some ("waiting", [1]) ∧
    (match actionCancelPreserve (cancelFuel c3cdb) c3cdb [1] with
     | .ok db' => (db'.getMove 3).map (·.state)
     | .error _ => none) = some "waiting" :=
  ⟨by decide, by decide, rfl⟩


/-! ## C7: operation-type resolution and the configuration error -/

/-- C7 theorem: `_get_equivalent_picking_type` resolves the equivalent
operation type in the target warehouse by first matching the fine-grained
`sequence_code` there (whenever such a match exists the result is one), then
falling back to the coarse category `code`; and when the target warehouse has
neither match, `_update_picking_warehouse` fails with the UserError naming
the operation and the target warehouse. -/
theorem c7_theorem (db : DB) (oldPt : PickingType) (newWh : Warehouse) :
    ((∃ t ∈ db.pickingTypes, t.warehouse_id = newWh.id ∧
        t.sequence_code = oldPt.sequence_code) →
      ∃ t', getEquivalentPickingType db oldPt newWh = some t' ∧
        t'.warehouse_id = newWh.id ∧ t'.sequence_code = oldPt.sequence_code) ∧
    ((∀ t ∈ db.pickingTypes, ¬(t.warehouse_id = newWh.id ∧
        t.sequence_code = oldPt.sequence_code)) →
      (∃ t ∈ db.pickingTypes, t.warehouse_id = newWh.id ∧ t.code = oldPt.code) →
      ∃ t', getEquivalentPickingType db oldPt newWh = some t' ∧
        t'.warehouse_id = newWh.id ∧ t'.code = oldPt.code) ∧
    ((∀ t ∈ db.pickingTypes, ¬(t.warehouse_id = newWh.id ∧
        t.sequence_code = oldPt.sequence_code)) →
      (∀ t ∈ db.pickingTypes, ¬(t.warehouse_id = newWh.id ∧
        t.code = oldPt.code)) →
      ∀ pid p, db.getPicking pid = some p →
        db.getPickingType p.picking_type_id = some oldPt →
        updatePickingWarehouse db pid newWh
          = .error (.userError (configErrMsg newWh.name oldPt.name))) := by
  refine ⟨?_, ?_, ?_⟩
  · intro hex
    have hsome : (db.pickingTypes.find? (fun t =>
        t.warehouse_id == newWh.id && t.sequence_code == oldPt.sequence_code)).isSome := by
      apply List.find?_isSome.mpr
      rcases hex with ⟨t, htmem, h1, h2⟩
      exact ⟨t, htmem, by simp [h1, h2]⟩
    rcases hfind : db.pickingTypes.find? (fun t =>
        t.warehouse_id == newWh.id && t.sequence_code == oldPt.sequence_code)
      with _ | t'
    · rw [hfind] at hsome; cases hsome
    · have hp := List.find?_some hfind
      simp only [Bool.and_eq_true, beq_iff_eq] at hp
      refine ⟨t', ?_, hp.1, hp.2⟩
      simp only [getEquivalentPickingType, hfind]
  · intro hnone hex
    have hfind1 : db.pickingTypes.find? (fun t =>
        t.warehouse_id == newWh.id && t.sequence_code == oldPt.sequence_code)
          = none := by
      apply List.find?_eq_none.mpr
      intro t htmem
      have := hnone t htmem
      simpa using this
    have hsome : (db.pickingTypes.find? (fun t =>
        t.warehouse_id == newWh.id && t.code == oldPt.code)).isSome := by
      apply List.find?_isSome.mpr
      rcases hex with ⟨t, htmem, h1, h2⟩
      exact ⟨t, htmem, by simp [h1, h2]⟩
    rcases hfind2 : db.pickingTypes.find? (fun t =>
        t.warehouse_id == newWh.id && t.code == oldPt.code) with _ | t'
    · rw [hfind2] at hsome; cases hsome
    · have hp := List.find?_some hfind2
      simp only [Bool.and_eq_true, beq_iff_eq] at hp
      refine ⟨t', ?_, hp.1, hp.2⟩
      simp only [getEquivalentPickingType, hfind1, hfind2]
  · intro hnone1 hnone2 pid p hp hpt
    have hfind1 : db.pickingTypes.find? (fun t =>
        t.warehouse_id == newWh.id && t.sequence_code == oldPt.sequence_code)
          = none := by
      apply List.find?_eq_none.mpr
      intro t htmem
      have := hnone1 t htmem
      simpa using this
    have hfind2 : db.pickingTypes.find? (fun t =>
        t.warehouse_id == newWh.id && t.code == oldPt.code) = none := by
      apply List.find?_eq_none.mpr
      intro t htmem
      have := hnone2 t htmem
      simpa using this
    have hres : getEquivalentPickingType db oldPt newWh = none := by
      simp only [getEquivalentPickingType, hfind1, hfind2]
    simp only [updatePickingWarehouse, hp, hpt, hres]

/-- Witness database for C7: warehouse 20 has a PICK type matching by
sequence code and a generic internal type; warehouse 30 has only the
internal type (code match); warehouse 40 has nothing. -/
def c7wdb : DB :=
  { moves := [],
    pickings := [mkPicking 1 "P1" []],
    pickingTypes :=
      [{ id := 5, name := "Old Pick", warehouse_id := 10, code := "internal",
         sequence_code := "PICK", default_location_src_id := none,
         default_location_dest_id := none },
       { id := 6, name := "New Pick", warehouse_id := 20, code := "internal",
         sequence_code := "PICK", default_location_src_id := none,
         default_location_dest_id := none },
       { id := 7, name := "New Internal", warehouse_id := 30, code := "internal",
         sequence_code := "INT", default_location_src_id := none,
         default_location_dest_id := none }],
    warehouses :=
      [{ id := 40, name := "WH4", lot_stock_id := 0, wh_output_stock_loc_id := 0,
         wh_input_stock_loc_id := 0, wh_pack_stock_loc_id := 0,
         delivery_steps := "ship_only", reception_steps := "one_step" }],
    locations := [] }

def c7oldPt : PickingType :=
  { id := 5, name := "Old Pick", warehouse_id := 10, code := "internal",
    sequence_code := "PICK", default_location_src_id := none,
    default_location_dest_id := none }

def c7wh20 : Warehouse :=
  { id := 20, name := "WH2", lot_stock_id := 0, wh_output_stock_loc_id := 0,
    wh_input_stock_loc_id := 0, wh_pack_stock_loc_id := 0,
    delivery_steps := "pick_ship", reception_steps := "one_step" }

def c7wh30 : Warehouse := { c7wh20 with id := 30, name := "WH3" }

def c7wh40 : Warehouse := { c7wh20 with id := 40, name := "WH4" }

/-- Witness for C7: the three branches of the theorem at concrete inputs
(exact sequence-code match in warehouse 20, code fallback in warehouse 30,
and the configuration error for warehouse 40). -/
theorem c7_witness :
    (∃ t', getEquivalentPickingType c7wdb c7oldPt c7wh20 = some t' ∧
      t'.warehouse_id = c7wh20.id ∧ t'.sequence_code = c7oldPt.sequence_code) ∧
    (∃ t', getEquivalentPickingType c7wdb c7oldPt c7wh30 = some t' ∧
      t'.warehouse_id = c7wh30.id ∧ t'.code = c7oldPt.code) ∧
    updatePickingWarehouse { c7wdb with
        pickings := [{ mkPicking 1 "P1" [] with picking_type_id := 5 }] } 1 c7wh40
      = .error (.userError (configErrMsg c7wh40.name c7oldPt.name)) :=
  ⟨(c7_theorem c7wdb c7oldPt c7wh20).1 (by decide),
   (c7_theorem c7wdb c7oldPt c7wh30).2.1 (by decide) (by decide),
   (c7_theorem { c7wdb with
       pickings := [{ mkPicking 1 "P1" [] with picking_type_id := 5 }] }
     c7oldPt c7wh40).2.2 (by decide) (by decide) 1
     { mkPicking 1 "P1" [] with picking_type_id := 5 } (by decide) (by decide)⟩


/-! ## C5: remap location correctness for a 2-step delivery chain -/

@[simp] theorem getPicking_updMoves (db : DB) (ids : List Nat) (f : Move → Move)
    (j : Nat) : (db.updMoves ids f).getPicking j = db.getPicking j := rfl

@[simp] theorem remapPickingRecord_id (p : Picking) (newPt : PickingType)
    (a b : Nat) : (remapPickingRecord p newPt a b).id = p.id := rfl

theorem getPicking_remapDB (db : DB) (p : Picking) (newPt : PickingType)
    (newWh : Warehouse) (j : Nat) :
    (remapDB db p newPt newWh).getPicking j
      = (db.getPicking j).map (fun x => if j == p.id then
          remapPickingRecord p newPt (getNewSourceLocation db p newPt newWh)
            (getNewDestLocation db p newPt newWh) else x) := by
  rw [remapDB, getPicking_updMoves, getPicking_setPicking, remapPickingRecord_id]

@[simp] theorem remapDB_pickingTypes (db : DB) (p : Picking)
    (newPt : PickingType) (newWh : Warehouse) :
    (remapDB db p newPt newWh).pickingTypes = db.pickingTypes := rfl

@[simp] theorem remapDB_warehouses (db : DB) (p : Picking)
    (newPt : PickingType) (newWh : Warehouse) :
    (remapDB db p newPt newWh).warehouses = db.warehouses := rfl

@[simp] theorem remapDB_locations (db : DB) (p : Picking)
    (newPt : PickingType) (newWh : Warehouse) :
    (remapDB db p newPt newWh).locations = db.locations := rfl

/-- Success shape of `_update_picking_warehouse`: when the picking, its old
operation type and an equivalent type in the target warehouse all resolve,
the picking and each of its moves are rewritten with the resolved type,
warehouse and locations. -/
theorem updatePickingWarehouse_ok {db : DB} {pid : Nat} {p : Picking}
    {oldPt newPt : PickingType} {newWh : Warehouse}
    (hp : db.getPicking pid = some p)
    (hpt : db.getPickingType p.picking_type_id = some oldPt)
    (heq : getEquivalentPickingType db oldPt newWh = some newPt) :
    updatePickingWarehouse db pid newWh = .ok (remapDB db p newPt newWh) := by
  simp only [updatePickingWarehouse, hp, hpt, heq]

/-- C5 theorem: for a 2-step delivery chain — pick (internal): old stock to
old output, ship (outgoing): old output to a customer location — remapped to
a target warehouse with 2-step delivery whose equivalent operation types
resolve to an internal pick type and an outgoing ship type, the remapper
rewrites the pick to (new stock → new output) and the ship to (new output →
customer), with the customer location unchanged. -/
theorem c5_theorem
    {db : DB} {pickP shipP : Picking} {whOld whNew : Warehouse}
    {ptPickOld ptShipOld ptPickNew ptShipNew : PickingType} {custLoc : Nat}
    (hp1 : db.getPicking pickP.id = some pickP)
    (hp2 : db.getPicking shipP.id = some shipP)
    (hne : pickP.id ≠ shipP.id)
    (hpt1 : db.getPickingType pickP.picking_type_id = some ptPickOld)
    (hpt2 : db.getPickingType shipP.picking_type_id = some ptShipOld)
    (hw1 : db.getWarehouse ptPickOld.warehouse_id = some whOld)
    (hw2 : db.getWarehouse ptShipOld.warehouse_id = some whOld)
    (heq1 : getEquivalentPickingType db ptPickOld whNew = some ptPickNew)
    (heq2 : getEquivalentPickingType db ptShipOld whNew = some ptShipNew)
    (hc1 : ptPickNew.code = "internal")
    (hc2 : ptShipNew.code = "outgoing")
    (hsteps : whNew.delivery_steps = "pick_ship")
    (hl1 : pickP.location_id = whOld.lot_stock_id)
    (hl2 : pickP.location_dest_id = whOld.wh_output_stock_loc_id)
    (hl3 : shipP.location_id = whOld.wh_output_stock_loc_id)
    (hl4 : shipP.location_dest_id = custLoc)
    (hu1 : usageOf db whOld.lot_stock_id = "internal")
    (hu2 : usageOf db whOld.wh_output_stock_loc_id = "internal")
    (hu3 : usageOf db custLoc = "customer") :
    ∃ db1 db2,
      updatePickingWarehouse db pickP.id whNew = .ok db1 ∧
      updatePickingWarehouse db1 shipP.id whNew = .ok db2 ∧
      ∃ pick2 ship2,
        db2.getPicking pickP.id = some pick2 ∧
        db2.getPicking shipP.id = some ship2 ∧
        pick2.picking_type_id = ptPickNew.id ∧
        pick2.location_id = whNew.lot_stock_id ∧
        pick2.location_dest_id = whNew.wh_output_stock_loc_id ∧
        ship2.picking_type_id = ptShipNew.id ∧
        ship2.location_id = whNew.wh_output_stock_loc_id ∧
        ship2.location_dest_id = custLoc := by
  have hwop1 : warehouseOfPicking db pickP = some whOld := by
    simp [warehouseOfPicking, hpt1, hw1]
  have hwop2 : warehouseOfPicking db shipP = some whOld := by
    simp [warehouseOfPicking, hpt2, hw2]
  have hsrc1 : getNewSourceLocation db pickP ptPickNew whNew
      = whNew.lot_stock_id := by
    simp [getNewSourceLocation, hl1, hu1, hwop1, hc1]
  have hdst1 : getNewDestLocation db pickP ptPickNew whNew
      = whNew.wh_output_stock_loc_id := by
    simp [getNewDestLocation, hl2, hu2, hwop1, hc1]
  have hsrc2 : getNewSourceLocation db shipP ptShipNew whNew
      = whNew.wh_output_stock_loc_id := by
    simp [getNewSourceLocation, hl3, hu2, hwop2, hc2, hsteps]
  have hdst2 : getNewDestLocation db shipP ptShipNew whNew = custLoc := by
    simp [getNewDestLocation, hl4, hu3, hc2]
  have hne1 : (shipP.id == pickP.id) = false := by
    simp only [beq_eq_false_iff_ne, ne_eq]
    exact fun h => hne h.symm
  have hne2 : (pickP.id == shipP.id) = false := by
    simp only [beq_eq_false_iff_ne, ne_eq]
    exact hne
  have h1 : updatePickingWarehouse db pickP.id whNew
      = .ok (remapDB db pickP ptPickNew whNew) :=
    updatePickingWarehouse_ok hp1 hpt1 heq1
  have hp2' : (remapDB db pickP ptPickNew whNew).getPicking shipP.id
      = some shipP := by
    rw [getPicking_remapDB, hp2]
    simp only [Option.map_some', hne1, Bool.false_eq_true, if_false]
  have hpt2' : (remapDB db pickP ptPickNew whNew).getPickingType
      shipP.picking_type_id = some ptShipOld := hpt2
  have heq2' : getEquivalentPickingType (remapDB db pickP ptPickNew whNew)
      ptShipOld whNew = some ptShipNew := heq2
  have h2 : updatePickingWarehouse (remapDB db pickP ptPickNew whNew)
      shipP.id whNew
      = .ok (remapDB (remapDB db pickP ptPickNew whNew) shipP ptShipNew whNew) :=
    updatePickingWarehouse_ok hp2' hpt2' heq2'
  have hsrc2' : getNewSourceLocation (remapDB db pickP ptPickNew whNew) shipP
      ptShipNew whNew = whNew.wh_output_stock_loc_id := hsrc2
  have hdst2' : getNewDestLocation (remapDB db pickP ptPickNew whNew) shipP
      ptShipNew whNew = custLoc := hdst2
  refine ⟨remapDB db pickP ptPickNew whNew,
    remapDB (remapDB db pickP ptPickNew whNew) shipP ptShipNew whNew,
    h1, h2,
    remapPickingRecord pickP ptPickNew
      (getNewSourceLocation db pickP ptPickNew whNew)
      (getNewDestLocation db pickP ptPickNew whNew),
    remapPickingRecord shipP ptShipNew
      (getNewSourceLocation (remapDB db pickP ptPickNew whNew) shipP
        ptShipNew whNew)
      (getNewDestLocation (remapDB db pickP ptPickNew whNew) shipP
        ptShipNew whNew),
    ?_, ?_, rfl, ?_, ?_, rfl, ?_, ?_⟩
  · rw [getPicking_remapDB, getPicking_remapDB, hp1]
    simp only [Option.map_some', beq_self_eq_true, if_true, hne2,
      Bool.false_eq_true, if_false]
  · rw [getPicking_remapDB, hp2']
    simp only [Option.map_some', beq_self_eq_true, if_true]
  · simpa [remapPickingRecord] using hsrc1
  · simpa [remapPickingRecord] using hdst1
  · simpa [remapPickingRecord] using hsrc2'
  · simpa [remapPickingRecord] using hdst2'

/-- Witness database for C5: warehouse 10 (stock 100, output 101) holds a
2-step delivery chain pick (stock→output) and ship (output→customer 102);
warehouse 20 (stock 200, output 201) is configured identically. -/
def c5wdb : DB :=
  { moves :=
      [{ mkMove 1 "cancel" [] [2] (some 1) true false with
          picking_type_id := 5, location_id := 100, location_dest_id := 101 },
       { mkMove 2 "cancel" [1] [] (some 2) true false with
          picking_type_id := 6, location_id := 101, location_dest_id := 102 }],
    pickings :=
      [{ mkPicking 1 "PICK1" [1] with
          picking_type_id := 5, location_id := 100, location_dest_id := 101 },
       { mkPicking 2 "SHIP1" [2] with
          picking_type_id := 6, location_id := 101, location_dest_id := 102 }],
    pickingTypes :=
      [{ id := 5, name := "WH1 Pick", warehouse_id := 10, code := "internal",
         sequence_code := "PICK", default_location_src_id := none,
         default_location_dest_id := none },
       { id := 6, name := "WH1 Out", warehouse_id := 10, code := "outgoing",
         sequence_code := "OUT", default_location_src_id := none,
         default_location_dest_id := none },
       { id := 7, name := "WH2 Pick", warehouse_id := 20, code := "internal",
         sequence_code := "PICK", default_location_src_id := none,
         default_location_dest_id := none },
       { id := 8, name := "WH2 Out", warehouse_id := 20, code := "outgoing",
         sequence_code := "OUT", default_location_src_id := none,
         default_location_dest_id := none }],
    warehouses :=
      [{ id := 10, name := "WH1", lot_stock_id := 100,
         wh_output_stock_loc_id := 101, wh_input_stock_loc_id := 103,
         wh_pack_stock_loc_id := 104, delivery_steps := "pick_ship",
         reception_steps := "one_step" },
       { id := 20, name := "WH2", lot_stock_id := 200,
         wh_output_stock_loc_id := 201, wh_input_stock_loc_id := 203,
         wh_pack_stock_loc_id := 204, delivery_steps := "pick_ship",
         reception_steps := "one_step" }],
    locations :=
      [{ id := 100, usage := "internal" }, { id := 101, usage := "internal" },
       { id := 102, usage := "customer" }, { id := 200, usage := "internal" },
       { id := 201, usage := "internal" }] }

def c5pick : Picking :=
  { mkPicking 1 "PICK1" [1] with
    picking_type_id := 5, location_id := 100, location_dest_id := 101 }

def c5ship : Picking :=
  { mkPicking 2 "SHIP1" [2] with
    picking_type_id := 6, location_id := 101, location_dest_id := 102 }

def c5wh2 : Warehouse :=
  { id := 20, name := "WH2", lot_stock_id := 200,
    wh_output_stock_loc_id := 201, wh_input_stock_loc_id := 203,
    wh_pack_stock_loc_id := 204, delivery_steps := "pick_ship",
    reception_steps := "one_step" }

def c5ptPickNew : PickingType :=
  { id := 7, name := "WH2 Pick", warehouse_id := 20, code := "internal",
    sequence_code := "PICK", default_location_src_id := none,
    default_location_dest_id := none }

def c5ptShipNew : PickingType :=
  { id := 8, name := "WH2 Out", warehouse_id := 20, code := "outgoing",
    sequence_code := "OUT", default_location_src_id := none,
    default_location_dest_id := none }

/-- Witness for C5: the theorem applied to the concrete 2-step chain. -/
theorem c5_witness :
    ∃ db1 db2,
      updatePickingWarehouse c5wdb c5pick.id c5wh2 = .ok db1 ∧
      updatePickingWarehouse db1 c5ship.id c5wh2 = .ok db2 ∧
      ∃ pick2 ship2,
        db2.getPicking c5pick.id = some pick2 ∧
        db2.getPicking c5ship.id = some ship2 ∧
        pick2.picking_type_id = c5ptPickNew.id ∧
        pick2.location_id = c5wh2.lot_stock_id ∧
        pick2.location_dest_id = c5wh2.wh_output_stock_loc_id ∧
        ship2.picking_type_id = c5ptShipNew.id ∧
        ship2.location_id = c5wh2.wh_output_stock_loc_id ∧
        ship2.location_dest_id = 102 :=
  @c5_theorem c5wdb c5pick c5ship
    { id := 10, name := "WH1", lot_stock_id := 100,
      wh_output_stock_loc_id := 101, wh_input_stock_loc_id := 103,
      wh_pack_stock_loc_id := 104, delivery_steps := "pick_ship",
      reception_steps := "one_step" }
    c5wh2
    { id := 5, name := "WH1 Pick", warehouse_id := 10,
      code := "internal", sequence_code := "PICK",
      default_location_src_id := none, default_location_dest_id := none }
    { id := 6, name := "WH1 Out", warehouse_id := 10,
      code := "outgoing", sequence_code := "OUT",
      default_location_src_id := none, default_location_dest_id := none }
    c5ptPickNew c5ptShipNew 102
    (by decide) (by decide) (by decide) (by decide) (by decide) (by decide)
    (by decide) (by decide) (by decide) (by decide) (by decide) (by decide)
    (by decide) (by decide) (by decide) (by decide) (by decide) (by decide)
    (by decide)


/-- Counterexample database for C2: seed picking 1 (move 1, successor move 2
in picking 2); picking 2 also owns move 3, whose predecessor move 4 lives in
picking 3.  Picking 3 is mixed-path reachable from picking 1. -/
def c2cdb : DB :=
  { moves := [mkMove 1 "confirmed" [] [2] (some 1) false false,
              mkMove 2 "waiting" [1] [] (some 2) false false,
              mkMove 3 "waiting" [4] [] (some 2) false false,
              mkMove 4 "confirmed" [] [3] (some 3) false false],
    pickings := [mkPicking 1 "A" [1], mkPicking 2 "C" [2, 3], mkPicking 3 "B" [4]],
    pickingTypes := [], warehouses := [], locations := [] }

/-! ## C2: chain discovery -/

/-- Spec-side adjacency (from the claim): picking `b` is one step from
picking `a` when a move owned by `a` references, as successor or predecessor,
a move owned by `b`. -/
def pickingAdjacent (db : DB) (a b : Nat) : Bool :=
  match db.getPicking a with
  | some pa => (movesOf db pa).any (fun ma =>
      ((ma.move_dest_ids ++ ma.move_orig_ids).filterMap db.getMove).any
        (fun mb => mb.picking_id == some b))
  | none => false

/-- Spec-side reachability (from the claim): the transitive closure of the
seed set under `pickingAdjacent`, mixing successor and predecessor steps
freely. -/
inductive ChainReach (db : DB) (seeds : List Nat) : Nat → Prop where
  | seed : ∀ {q}, q ∈ seeds → ChainReach db seeds q
  | step : ∀ {a q}, ChainReach db seeds a → pickingAdjacent db a q = true →
      ChainReach db seeds q

theorem chainLoop_mono (sel : Move → List Nat) :
    ∀ fuel : Nat, ∀ db all frontier, ∀ x, x ∈ all →
      x ∈ chainLoop sel fuel db all frontier := by
  intro fuel
  induction fuel with
  | zero => intro db all frontier x hx; exact hx
  | succ fuel ih =>
    intro db all frontier x hx
    simp only [chainLoop]
    split
    · exact hx
    · split
      · exact hx
      · exact ih db _ _ x (List.mem_append_left _ hx)

theorem chainLoop_nodup (sel : Move → List Nat) :
    ∀ fuel : Nat, ∀ db all frontier, all.Nodup →
      (chainLoop sel fuel db all frontier).Nodup := by
  intro fuel
  induction fuel with
  | zero => intro db all frontier h; exact h
  | succ fuel ih =>
    intro db all frontier h
    simp only [chainLoop]
    split
    · exact h
    · split
      · exact h
      · apply ih
        apply List.Nodup.append h
        · exact (List.Nodup.filter _ (List.nodup_dedup _))
        · intro x hx1 hx2
          have := (List.mem_filter.mp hx2).2
          simp at this
          exact this hx1

/-- Every picking a frontier step discovers is adjacent to a picking already
reached, so everything the loop returns is in the mixed closure. -/
theorem chainLoop_sound {db : DB} {seeds : List Nat} {sel : Move → List Nat}
    (hsel : ∀ mv : Move, sel mv = mv.move_dest_ids ∨ sel mv = mv.move_orig_ids) :
    ∀ fuel : Nat, ∀ all frontier,
    (∀ a ∈ all, ChainReach db seeds a) →
    (∀ mid ∈ frontier, ∃ a pa, ChainReach db seeds a ∧
      db.getPicking a = some pa ∧
      ∃ ma ∈ movesOf db pa, mid ∈ ma.move_dest_ids ∨ mid ∈ ma.move_orig_ids) →
    ∀ q ∈ chainLoop sel fuel db all frontier, ChainReach db seeds q := by
  intro fuel
  induction fuel with
  | zero => intro all frontier hall _ q hq; exact hall q hq
  | succ fuel ih =>
    intro all frontier hall hfront q hq
    simp only [chainLoop] at hq
    split at hq
    · exact hall q hq
    · split at hq
      · exact hall q hq
      · have key1 : ∀ r, r ∈ pickingsOfMoves db frontier → ChainReach db seeds r := by
          intro r hr
          rw [pickingsOfMoves] at hr
          have hr1 := List.mem_dedup.mp hr
          have hr2 := (List.mem_filter.mp hr1).1
          rcases List.mem_filterMap.mp hr2 with ⟨mb, hmb, hmbp⟩
          rcases List.mem_filterMap.mp hmb with ⟨mid, hmid, hmbget⟩
          rcases hfront mid hmid with ⟨a, pa, hreach, hpa, ma, hma, hside⟩
          refine ChainReach.step hreach ?_
          rw [pickingAdjacent, hpa]
          apply List.any_eq_true.mpr
          refine ⟨ma, hma, ?_⟩
          apply List.any_eq_true.mpr
          refine ⟨mb, List.mem_filterMap.mpr ⟨mid, ?_, hmbget⟩, by simp [hmbp]⟩
          rcases hside with h | h
          · exact List.mem_append_left _ h
          · exact List.mem_append_right _ h
        refine ih _ _ ?_ ?_ q hq
        · intro a ha
          rcases List.mem_append.mp ha with h | h
          · exact hall a h
          · exact key1 a (List.mem_filter.mp h).1
        · intro mid hmid
          rcases List.mem_flatten.mp hmid with ⟨selList, hsl, hmidin⟩
          rcases List.mem_map.mp hsl with ⟨mq, hmq, hseleq⟩
          rcases List.mem_filterMap.mp hmq with ⟨midq, hmidq, hmqget⟩
          rcases List.mem_flatten.mp hmidq with ⟨mlist, hml, hmidqin⟩
          rcases List.mem_map.mp hml with ⟨pq, hpq, hmleq⟩
          have hpqc := mem_filterMap_getPicking hpq
          refine ⟨pq.id, pq, ?_, hpqc.1, mq, ?_, ?_⟩
          · exact key1 pq.id ((List.mem_filter.mp hpqc.2).1)
          · refine List.mem_filterMap.mpr ⟨midq, ?_, hmqget⟩
            rw [← hmleq] at hmidqin
            exact hmidqin
          · rw [← hseleq] at hmidin
            rcases hsel mq with h | h <;> rw [h] at hmidin
            · exact Or.inl hmidin
            · exact Or.inr hmidin

/-- C2 theorem (amended): chain discovery returns a duplicate-free list of
pickings that contains every seed and is contained in the mixed-direction
transitive closure of the seeds.  (It does not return the whole closure:
paths mixing successor and predecessor steps can be missed, see the
counterexample.) -/
theorem c2_theorem (db : DB) (seeds : List Nat) (hnd : seeds.Nodup) :
    (∀ s ∈ seeds, s ∈ getAllChainedPickings db seeds) ∧
    (∀ q ∈ getAllChainedPickings db seeds, ChainReach db seeds q) ∧
    (getAllChainedPickings db seeds).Nodup := by
  refine ⟨?_, ?_, ?_⟩
  · intro s hs
    exact chainLoop_mono _ _ _ _ _ s (chainLoop_mono _ _ _ _ _ s hs)
  · intro q hq
    have hfrontier : ∀ sel : Move → List Nat,
        (∀ mv : Move, sel mv = mv.move_dest_ids ∨ sel mv = mv.move_orig_ids) →
        ∀ mid ∈ (((((seeds.filterMap db.getPicking).map (·.move_ids)).flatten).filterMap
          db.getMove).map sel).flatten,
        ∃ a pa, ChainReach db seeds a ∧ db.getPicking a = some pa ∧
          ∃ ma ∈ movesOf db pa, mid ∈ ma.move_dest_ids ∨ mid ∈ ma.move_orig_ids := by
      intro sel hsel mid hmid
      rcases List.mem_flatten.mp hmid with ⟨selList, hsl, hmidin⟩
      rcases List.mem_map.mp hsl with ⟨ma, hma, hseleq⟩
      rcases List.mem_filterMap.mp hma with ⟨mamid, hmamid, hmaget⟩
      rcases List.mem_flatten.mp hmamid with ⟨mlist, hml, hmamidin⟩
      rcases List.mem_map.mp hml with ⟨pa, hpa, hmleq⟩
      have hpac := mem_filterMap_getPicking hpa
      refine ⟨pa.id, pa, ChainReach.seed hpac.2, hpac.1, ma, ?_, ?_⟩
      · refine List.mem_filterMap.mpr ⟨mamid, ?_, hmaget⟩
        rw [← hmleq] at hmamidin
        exact hmamidin
      · rw [← hseleq] at hmidin
        rcases hsel ma with h | h <;> rw [h] at hmidin
        · exact Or.inl hmidin
        · exact Or.inr hmidin
    have hdown : ∀ r ∈ chainLoop (·.move_dest_ids) (chainFuel db) db seeds
        (((((seeds.filterMap db.getPicking).map (·.move_ids)).flatten).filterMap
          db.getMove).map (·.move_dest_ids)).flatten, ChainReach db seeds r := by
      intro r hr
      exact chainLoop_sound (fun mv => Or.inl rfl) (chainFuel db) seeds _
        (fun a ha => ChainReach.seed ha)
        (hfrontier _ (fun mv => Or.inl rfl)) r hr
    exact chainLoop_sound (fun mv => Or.inr rfl) (chainFuel db) _ _
      hdown (hfrontier _ (fun mv => Or.inr rfl)) q hq
  · exact chainLoop_nodup _ _ _ _ _ (chainLoop_nodup _ _ _ _ _ hnd)

/-- Witness for C2: the amended theorem at the counterexample database. -/
theorem c2_witness :
    (∀ s ∈ [1], s ∈ getAllChainedPickings c2cdb [1]) ∧
    (∀ q ∈ getAllChainedPickings c2cdb [1], ChainReach c2cdb [1] q) ∧
    (getAllChainedPickings c2cdb [1]).Nodup :=
  c2_theorem c2cdb [1] (by decide)

/-- C2 counterexample: picking 3 is in the mixed-direction closure of seed
picking 1 (go downstream from 1 to 2 via move 1 → move 2, then upstream from
2 to 3 via move 3 ← move 4), but chain discovery — a downstream-only walk
followed by an upstream-only walk — never finds it. -/
theorem c2_counterexample :
    ChainReach c2cdb [1] 3 ∧ 3 ∉ getAllChainedPickings c2cdb [1] := by
  constructor
  · exact @ChainReach.step c2cdb [1] 2 3
      (@ChainReach.step c2cdb [1] 1 2 (ChainReach.seed (by decide)) (by decide))
      (by decide)
  · decide


/-! ## C9: fate of direct destination moves under cancel-back-to-draft -/

theorem isEmpty_false_of_mem {α : Type} {l : List α} {x : α} (h : x ∈ l) :
    l.isEmpty = false := by
  rcases l with _ | ⟨a, l⟩
  · cases h
  · rfl

@[simp] theorem draftMove_state (m : Move) : (draftMove m).state = "draft" := by
  unfold draftMove; split <;> rfl

@[simp] theorem draftMove_orig (m : Move) :
    (draftMove m).move_orig_ids = m.move_orig_ids := by
  unfold draftMove; split <;> rfl

@[simp] theorem draftMove_dest (m : Move) :
    (draftMove m).move_dest_ids = m.move_dest_ids := by
  unfold draftMove; split <;> rfl

/-- A back-to-draft call that succeeded had only cancelled targets. -/
theorem actionBackToDraft_targets {db : DB} {ids : List Nat} {db' : DB}
    (h : actionBackToDraft db ids = .ok db') :
    ∀ m ∈ ids.filterMap db.getMove, m.state = "cancel" := by
  by_cases hval : ∃ m ∈ ids.filterMap db.getMove, m.state ≠ "cancel"
  · rw [actionBackToDraft_err hval] at h; cases h
  · push_neg at hval
    exact hval

/-- The per-move effect of a successful back-to-draft call. -/
theorem actionBackToDraft_post {db : DB} {ids : List Nat} {db' : DB}
    (h : actionBackToDraft db ids = .ok db') :
    (∀ j x, j ∈ ids → db.getMove j = some x →
      db'.getMove j = some (draftMove x)) ∧
    (∀ j, j ∉ ids → db'.getMove j = db.getMove j) := by
  have htg := actionBackToDraft_targets h
  rcases actionBackToDraft_ok htg with ⟨db'', hok, hpost, hunch, -⟩
  rw [hok] at h
  cases h
  exact ⟨hpost, hunch⟩

theorem pickingActionCancelPreserve_frame {db : DB} {pids : List Nat}
    {db' : DB} (h : pickingActionCancelPreserve db pids = .ok db') :
    CancelFrame db db' :=
  actionCancelPreserve_frame _ _ _ _ h

/-- A successful picking-level preserve-cancel cancels every targeted live
move. -/
theorem pickingActionCancelPreserve_cancels {db : DB} {pids : List Nat}
    {db' : DB} (h : pickingActionCancelPreserve db pids = .ok db')
    {j : Nat} {x : Move}
    (hj : j ∈ (((pids.filterMap db.getPicking).map (·.move_ids)).flatten))
    (hx : db.getMove j = some x) (hxc : x.state ≠ "cancel")
    (hxd : x.state ≠ "done") :
    db'.getMove j = some (cancelMove x) := by
  rw [pickingActionCancelPreserve, cancelFuel] at h
  exact actionCancelPreserve_cancels h hj hx hxc hxd

theorem getPicking_congr {db db1 : DB} (h : db1.pickings = db.pickings)
    (j : Nat) : db1.getPicking j = db.getPicking j := by
  simp only [DB.getPicking, h]

/-- Counterexample database for C9: picking 1 holds move 1 (propagate_cancel
false, destination move 3) and move 2 (propagate_cancel true, destination
move 4); the pickingless move 4 propagates on to move 3; move 3 (state
waiting) is the only move of picking 2. -/
def c9cdb : DB :=
  { moves := [mkMove 1 "confirmed" [] [3] (some 1) false false,
              mkMove 2 "confirmed" [] [4] (some 1) true false,
              mkMove 3 "waiting" [1, 4] [] (some 2) false false,
              mkMove 4 "waiting" [2] [3] none true false],
    pickings := [mkPicking 1 "P" [1, 2], mkPicking 2 "B" [3]],
    pickingTypes := [], warehouses := [], locations := [] }

/-- C9 counterexample: cancelling picking 1 back to draft succeeds; move 3 is
a destination move of targeted move 1, was in state waiting and belongs to
picking 2, so the claim requires it to end in draft.  But move 1 has
`propagate_cancel = false`, so move 3 is never tracked; it is cancelled
anyway through the depth-2 cascade (move 2 to move 4 to move 3), whereupon
its owning picking 2 is fully cancelled, fails the waiting/confirmed/assigned
re-filter, and move 3 is left in state `cancel`. -/
theorem c9_counterexample :
    (c9cdb.getMove 1).map (fun x => (x.state, x.move_dest_ids,
        x.propagate_cancel, x.picking_id)) =
      some ("confirmed", [3], false, some 1) ∧
    (c9cdb.getMove 3).map (fun x => (x.state, x.picking_id)) =
      some ("waiting", some 2) ∧
    (c9cdb.getPicking 2).map (·.move_ids) = some [3] ∧
    (match actionCancelBackToDraft c9cdb true [1] with
     | .ok dbF => (dbF.getMove 3).map (·.state)
     | .error _ => none) = some "cancel" :=
  ⟨by decide, by decide, by decide, rfl⟩

/-- C9 theorem (amended): suppose `action_cancel_back_to_draft` succeeds on
`pids`, `m` is a move of a targeted non-cancel picking, and `did` is a
destination move of `m` that is live (waiting/confirmed/assigned) and belongs
to picking `bid`.  If the destination is actually tracked — either `m` has
`propagate_cancel = true`, or the destination survives the first cancellation
pass (the chain-preserving cancellation of the targeted pickings) uncancelled,
so that its owning picking passes the waiting/confirmed/assigned re-filter and
is cancelled by the second pass — then in the final database the destination
move ends in state `draft` with its chain links preserved.  Without the
tracking condition the conclusion can fail (see the counterexample). -/
theorem c9_theorem {db : DB} {pids : List Nat} {dbF : DB} {pid : Nat}
    {p : Picking} {mid did : Nat} {m dm : Move} {bid : Nat} {B : Picking}
    (hrun : actionCancelBackToDraft db true pids = .ok dbF)
    (hpin : pid ∈ pids) (hp : db.getPicking pid = some p)
    (hpnc : pickingState db p ≠ "cancel")
    (hmid : mid ∈ p.move_ids) (hm : db.getMove mid = some m)
    (hd : did ∈ m.move_dest_ids) (hdm : db.getMove did = some dm)
    (hdlive : dm.state = "waiting" ∨ dm.state = "confirmed" ∨
      dm.state = "assigned")
    (hBid : dm.picking_id = some bid) (hBp : db.getPicking bid = some B)
    (hBmem : did ∈ B.move_ids)
    (htracked : m.propagate_cancel = true ∨
      ∀ d1, pickingActionCancelPreserve db
          ((pickingsToCancel db pids).map (·.id)) = .ok d1 →
        ∃ dm1, d1.getMove did = some dm1 ∧ dm1.state ≠ "cancel") :
    ∃ dmF, dbF.getMove did = some dmF ∧ dmF.state = "draft" ∧
      dmF.move_orig_ids = dm.move_orig_ids ∧
      dmF.move_dest_ids = dm.move_dest_ids := by
  have hdnd : dm.state ≠ "done" := by
    rcases hdlive with h | h | h <;> rw [h] <;> decide
  have hdnc : dm.state ≠ "cancel" := by
    rcases hdlive with h | h | h <;> rw [h] <;> decide
  have hpptc : p ∈ pickingsToCancel db pids := by
    simp only [pickingsToCancel]
    refine List.mem_filter.mpr ⟨List.mem_filterMap.mpr ⟨pid, hpin, hp⟩, ?_⟩
    simpa using hpnc
  have hptc_ne : (pickingsToCancel db pids).isEmpty = false :=
    isEmpty_false_of_mem hpptc
  have hm_mem : m ∈ movesToCancel db pids := by
    simp only [movesToCancel]
    refine List.mem_filterMap.mpr ⟨mid, ?_, hm⟩
    exact List.mem_flatten.mpr ⟨p.move_ids, List.mem_map.mpr ⟨p, hpptc, rfl⟩, hmid⟩
  have hbid_dpr : bid ∈ destPickingsReset db pids := by
    simp only [destPickingsReset]
    apply List.mem_dedup.mpr
    refine List.mem_flatten.mpr ⟨_, List.mem_map.mpr ⟨m, hm_mem, rfl⟩, ?_⟩
    refine List.mem_filterMap.mpr ⟨dm, List.mem_filter.mpr
      ⟨List.mem_filterMap.mpr ⟨did, hd, hdm⟩, ?_⟩, hBid⟩
    rcases hdlive with h | h | h <;> simp [h]
  have hdpr_ne : (destPickingsReset db pids).isEmpty = false :=
    isEmpty_false_of_mem hbid_dpr
  simp only [actionCancelBackToDraft, checkCancelBackToDraftAllowed,
    Bool.not_true, Bool.false_eq_true, if_false] at hrun
  split at hrun
  · exact Except.noConfusion hrun
  rename_i db1 cd hphase
  split at hrun
  · exact Except.noConfusion hrun
  rename_i db2 hbtd1
  simp only [cancelPhase, hptc_ne, hdpr_ne, Bool.false_eq_true, if_false]
    at hphase
  split at hphase
  · exact Except.noConfusion hphase
  rename_i db1x hph1
  have hfr1 : CancelFrame db db1x := pickingActionCancelPreserve_frame hph1
  have hshape : ((resetPickings db1x (destPickingsReset db pids)).isEmpty
        = true ∧ db1 = db1x ∧
        cd = cancelledIdsOf db1x (destTrackIds db pids)) ∨
      ∃ db2x, pickingActionCancelPreserve db1x
          ((resetPickings db1x (destPickingsReset db pids)).map (·.id))
            = .ok db2x ∧
        db1 = db2x ∧ cd = (cancelledIdsOf db1x (destTrackIds db pids) ++
          ((resetPickings db1x (destPickingsReset db pids)).map
            (·.move_ids)).flatten).dedup := by
    split at hphase
    · rename_i hre
      simp only [Except.ok.injEq, Prod.mk.injEq] at hphase
      exact Or.inl ⟨hre, hphase.1.symm, hphase.2.symm⟩
    · rename_i hre
      split at hphase
      · exact Except.noConfusion hphase
      rename_i db2x hph2
      simp only [Except.ok.injEq, Prod.mk.injEq] at hphase
      exact Or.inr ⟨db2x, hph2, hphase.1.symm, hphase.2.symm⟩
  have hframe01 : CancelFrame db1x db1 := by
    rcases hshape with ⟨-, hdb1eq, -⟩ | ⟨db2x, hph2, hdb1eq, -⟩
    · rw [hdb1eq]; exact cancelFrame_refl _
    · rw [hdb1eq]; exact pickingActionCancelPreserve_frame hph2
  have hdm1cases : db1x.getMove did = some dm ∨
      db1x.getMove did = some (cancelMove dm) := by
    rcases hfr1.2.2.2.2 did with h | ⟨x, hx, -, -, hx2⟩
    · exact Or.inl (h.trans hdm)
    · rw [hdm] at hx; cases hx; exact Or.inr hx2
  have hkey : did ∈ cd ∧ db1.getMove did = some (cancelMove dm) := by
    rcases hdm1cases with hlive1 | hcanc1
    · have hBp1 : db1x.getPicking bid = some B := by
        rw [getPicking_congr hfr1.1]; exact hBp
      have hdmB : dm ∈ movesOf db1x B :=
        List.mem_filterMap.mpr ⟨did, hBmem, hlive1⟩
      have hBlive := pickingState_live hdmB hdlive
      have hBreset : B ∈ resetPickings db1x (destPickingsReset db pids) := by
        simp only [resetPickings]
        refine List.mem_filter.mpr
          ⟨List.mem_filterMap.mpr ⟨bid, hbid_dpr, hBp1⟩, ?_⟩
        rcases hBlive with h | h | h <;> simp [h]
      have hreset_ne : (resetPickings db1x
          (destPickingsReset db pids)).isEmpty = false :=
        isEmpty_false_of_mem hBreset
      rcases hshape with ⟨hre, -, -⟩ | ⟨db2x, hph2, hdb1eq, hcdeq⟩
      · rw [hreset_ne] at hre; exact Bool.noConfusion hre
      have hdid_t : did ∈ ((((resetPickings db1x
          (destPickingsReset db pids)).map (·.id)).filterMap
            db1x.getPicking).map (·.move_ids)).flatten := by
        refine List.mem_flatten.mpr ⟨B.move_ids, ?_, hBmem⟩
        refine List.mem_map.mpr ⟨B, ?_, rfl⟩
        refine List.mem_filterMap.mpr ⟨B.id, List.mem_map.mpr ⟨B, hBreset, rfl⟩, ?_⟩
        rw [getPicking_id hBp1]; exact hBp1
      have hcanc2 : db2x.getMove did = some (cancelMove dm) :=
        pickingActionCancelPreserve_cancels hph2 hdid_t hlive1 hdnc hdnd
      refine ⟨?_, ?_⟩
      · rw [hcdeq]
        refine List.mem_dedup.mpr (List.mem_append.mpr (Or.inr ?_))
        exact List.mem_flatten.mpr ⟨B.move_ids,
          List.mem_map.mpr ⟨B, hBreset, rfl⟩, hBmem⟩
      · rw [hdb1eq]; exact hcanc2
    · have hdb1did : db1.getMove did = some (cancelMove dm) :=
        cancelFrame_preserves_cancel hframe01 hcanc1 rfl
      rcases htracked with hprop | htr
      · have hdid_track : did ∈ destTrackIds db pids := by
          simp only [destTrackIds]
          refine List.mem_map.mpr ⟨dm, ?_, getMove_id hdm⟩
          refine List.mem_filter.mpr ⟨?_, ?_⟩
          · refine List.mem_filterMap.mpr ⟨did, ?_, hdm⟩
            apply List.mem_dedup.mpr
            refine List.mem_flatten.mpr ⟨m.move_dest_ids, ?_, hd⟩
            refine List.mem_map.mpr ⟨m, ?_, rfl⟩
            exact List.mem_filter.mpr ⟨hm_mem, by simp [hprop]⟩
          · rcases hdlive with h | h | h <;> simp [h]
        have hdid_cIds : did ∈ cancelledIdsOf db1x
            (destTrackIds db pids) := by
          simp only [cancelledIdsOf]
          refine List.mem_map.mpr ⟨cancelMove dm, ?_, ?_⟩
          · refine List.mem_filter.mpr
              ⟨List.mem_filterMap.mpr ⟨did, hdid_track, hcanc1⟩, by simp⟩
          · rw [← getMove_id hdm]; rfl
        refine ⟨?_, hdb1did⟩
        rcases hshape with ⟨-, -, hcdeq⟩ | ⟨db2x, -, -, hcdeq⟩
        · rw [hcdeq]; exact hdid_cIds
        · rw [hcdeq]
          exact List.mem_dedup.mpr (List.mem_append.mpr (Or.inl hdid_cIds))
      · exfalso
        obtain ⟨dm1, hget1, hne1⟩ := htr db1x hph1
        rw [hcanc1] at hget1
        injection hget1 with h
        rw [← h] at hne1
        exact hne1 rfl
  obtain ⟨hdid_cd, hdb1did⟩ := hkey
  have hcd_ne : cd.isEmpty = false := isEmpty_false_of_mem hdid_cd
  rw [hcd_ne] at hrun
  simp only [Bool.false_eq_true, if_false] at hrun
  by_cases hself : did ∈ ((pids.filterMap db1.getPicking).map (·.move_ids)).flatten
  · exfalso
    have hd2 : db2.getMove did = some (draftMove (cancelMove dm)) :=
      (actionBackToDraft_post hbtd1).1 did (cancelMove dm) hself hdb1did
    have htgF := actionBackToDraft_targets hrun (draftMove (cancelMove dm))
      (List.mem_filterMap.mpr ⟨did, hdid_cd, hd2⟩)
    rw [draftMove_state] at htgF
    exact absurd htgF (by decide)
  · have hd2 : db2.getMove did = some (cancelMove dm) := by
      rw [(actionBackToDraft_post hbtd1).2 did hself]; exact hdb1did
    have hF : dbF.getMove did = some (draftMove (cancelMove dm)) :=
      (actionBackToDraft_post hrun).1 did (cancelMove dm) hdid_cd hd2
    exact ⟨draftMove (cancelMove dm), hF, draftMove_state _, by simp, by simp⟩

/-- Witness database for C9: picking 1 holds move 1 (propagate_cancel false)
whose destination move 2 (state waiting) is the only move of picking 2; move
2 survives the first cancellation pass, so picking 2 is reset by the second
pass. -/
def c9wdb : DB :=
  { moves := [mkMove 1 "confirmed" [] [2] (some 1) false false,
              mkMove 2 "waiting" [1] [] (some 2) false false],
    pickings := [mkPicking 1 "P" [1], mkPicking 2 "B" [2]],
    pickingTypes := [], warehouses := [], locations := [] }

/-- The database produced by the first cancellation pass over `c9wdb`. -/
def c9mid : DB :=
  match pickingActionCancelPreserve c9wdb
      ((pickingsToCancel c9wdb [1]).map (·.id)) with
  | .ok d => d
  | .error _ => c9wdb

/-- The database produced by cancelling picking 1 of `c9wdb` back to draft. -/
def c9res : DB :=
  match actionCancelBackToDraft c9wdb true [1] with
  | .ok d => d
  | .error _ => c9wdb

/-- Witness for C9: the theorem applied at the concrete run on `c9wdb`,
discharging the tracking hypothesis through its second disjunct — move 1 has
`propagate_cancel = false`, and destination move 2 is still in state waiting
after the first cancellation pass — so the second-pass reset mechanism leaves
move 2 in draft with its chain links preserved. -/
theorem c9_witness :
    actionCancelBackToDraft c9wdb true [1] = .ok c9res ∧
    (mkMove 1 "confirmed" [] [2] (some 1) false false).propagate_cancel
      = false ∧
    ∃ dmF, c9res.getMove 2 = some dmF ∧ dmF.state = "draft" ∧
      dmF.move_orig_ids
        = (mkMove 2 "waiting" [1] [] (some 2) false false).move_orig_ids ∧
      dmF.move_dest_ids
        = (mkMove 2 "waiting" [1] [] (some 2) false false).move_dest_ids :=
  ⟨rfl, rfl, @c9_theorem c9wdb [1] c9res 1 (mkPicking 1 "P" [1]) 1 2
    (mkMove 1 "confirmed" [] [2] (some 1) false false)
    (mkMove 2 "waiting" [1] [] (some 2) false false) 2 (mkPicking 2 "B" [2])
    rfl (by decide) rfl (by decide) (by decide) rfl (by decide) rfl
    (by decide) rfl rfl (by decide)
    (Or.inr (fun d1 h => by
      have h2 : Except.ok c9mid = Except.ok d1 :=
        (rfl : pickingActionCancelPreserve c9wdb
          ((pickingsToCancel c9wdb [1]).map (·.id)) = Except.ok c9mid).symm.trans h
      injection h2 with h3
      subst h3
      exact ⟨_, rfl, by decide⟩))⟩


end StockB2D
